import Mathlib

/-!
# Verification of the AgentFleet resilient pipeline orchestration layer

A shallow embedding of the repository's core modules
(`capstone/mcp_envelope.py`, `capstone/agent_utils.py`,
`capstone/error_recovery.py`, `capstone/session_archival.py`,
`capstone/integration_pipeline.py`) together with proofs about the
properties the specification states for them.

Modelling conventions:
* Python `dict`s whose keys are strings are association lists
  `List (String × PyVal)`; insertion-order semantics of CPython dicts are
  preserved by `assocSet`.
* Python `datetime` values are modelled as `Nat` microseconds since the
  epoch; `datetime.isoformat`/`datetime.fromisoformat` are modelled by an
  injective decimal rendering with a partial inverse (`dtIso`/`dtFromIso`),
  which preserves the properties the code relies on: the rendering is
  injective, the parse is its left inverse, and the parse fails on strings
  that are not renderings.
* Wall-clock reads (`time.time()`, `datetime.now()`) become explicit `now`
  parameters, and fresh UUIDs become explicit `freshId` parameters.
* Network calls become oracle functions giving the outcome of each attempt.
* Floating point only affects sleep durations and the reported
  `response_time`, never a branch or stored result relevant here, so those
  fields are omitted.
-/

namespace Capstone

/-- Model of the Python values that flow through the pipeline's dicts. -/
inductive PyVal where
  | pstr (s : String)
  | pint (n : Int)
  | pbool (b : Bool)
  | pnone
  | pdict (kvs : List (String × PyVal))

/-- Python truthiness (`if not x`) for the modelled values. -/
def pyTruthy : PyVal → Bool
  | .pstr s => !s.isEmpty
  | .pint n => n != 0
  | .pbool b => b
  | .pnone => false
  | .pdict kvs => !kvs.isEmpty

/-- Rendering used where the source interpolates a value into an f-string.
Dict renderings are abbreviated; no claim inspects them. -/
def pyStr : PyVal → String
  | .pstr s => s
  | .pint n => toString n
  | .pbool b => if b then "True" else "False"
  | .pnone => "None"
  | .pdict _ => "{...}"

/-- `d[k] = v` on a CPython dict: replace in place if the key exists,
append otherwise. -/
def assocSet {α : Type} : List (String × α) → String → α → List (String × α)
  | [], k, v => [(k, v)]
  | (k', v') :: rest, k, v =>
      if k' = k then (k, v) :: rest else (k', v') :: assocSet rest k v

/-- `k in d` on a dict. -/
def assocHas {α : Type} (kvs : List (String × α)) (k : String) : Bool :=
  kvs.any (fun kv => kv.1 = k)

/-- `d.get(k)` on a dict. -/
def assocGet {α : Type} : List (String × α) → String → Option α
  | [], _ => none
  | (k', v) :: rest, k => if k' = k then some v else assocGet rest k

theorem assocGet_set_self {α : Type} (kvs : List (String × α)) (k : String) (v : α) :
    assocGet (assocSet kvs k v) k = some v := by
  induction kvs with
  | nil => simp [assocSet, assocGet]
  | cons hd tl ih =>
      by_cases h : hd.1 = k
      · simp [assocSet, assocGet, h]
      · simp [assocSet, assocGet, h, ih]

theorem assocGet_set_ne {α : Type} (kvs : List (String × α)) (k k' : String) (v : α)
    (h : k ≠ k') : assocGet (assocSet kvs k v) k' = assocGet kvs k' := by
  induction kvs with
  | nil => simp [assocSet, assocGet, h]
  | cons hd tl ih =>
      by_cases hh : hd.1 = k
      · simp [assocSet, assocGet, hh, h]
      · simp only [assocSet, hh, if_false, assocGet]
        by_cases hk : hd.1 = k' <;> simp [hk, ih]

/-! ## Datetime model

`natToChars`/`charsToNat?` model `datetime.isoformat` and
`datetime.fromisoformat` on the `Nat`-microsecond representation of
`datetime` values.  The auxiliary encoder takes explicit fuel so that it is
structurally recursive (hence computable by kernel reduction); `n + 1` fuel
always suffices. -/

abbrev DateTime := Nat

def digitChar (d : Nat) : Char := Char.ofNat (48 + d)

def digitVal? (c : Char) : Option Nat :=
  if 48 ≤ c.toNat ∧ c.toNat ≤ 57 then some (c.toNat - 48) else none

def natToCharsAux : Nat → Nat → List Char
  | 0, _ => []
  | fuel + 1, n =>
      if n < 10 then [digitChar n]
      else natToCharsAux fuel (n / 10) ++ [digitChar (n % 10)]

def natToChars (n : Nat) : List Char := natToCharsAux (n + 1) n

def charsToNatAux : List Char → Nat → Option Nat
  | [], acc => some acc
  | c :: rest, acc =>
      match digitVal? c with
      | some d => charsToNatAux rest (acc * 10 + d)
      | none => none

def charsToNat? (cs : List Char) : Option Nat :=
  if cs.isEmpty then none else charsToNatAux cs 0

/-- Model of `datetime.isoformat` on the `Nat` timestamp model. -/
def dtIso (t : DateTime) : String := ⟨natToChars t⟩

/-- Model of `datetime.fromisoformat`: partial inverse of `dtIso`. -/
def dtFromIso (s : String) : Option DateTime := charsToNat? s.data

theorem digitVal?_digitChar (d : Nat) (h : d < 10) :
    digitVal? (digitChar d) = some d := by
  interval_cases d <;> decide

theorem natToCharsAux_fuel (n : Nat) : ∀ f1 f2, n < f1 → n < f2 →
    natToCharsAux f1 n = natToCharsAux f2 n := by
  induction n using Nat.strong_induction_on with
  | _ n ih =>
    intro f1 f2 h1 h2
    match f1, f2 with
    | f1 + 1, f2 + 1 =>
      by_cases h10 : n < 10
      · simp [natToCharsAux, h10]
      · have hdiv : n / 10 < n := Nat.div_lt_self (by omega) (by omega)
        simp only [natToCharsAux, if_neg h10]
        rw [ih (n / 10) hdiv f1 f2 (by omega) (by omega)]

theorem natToCharsAux_eq (fuel n : Nat) (h : n < fuel) :
    natToCharsAux fuel n = natToChars n :=
  natToCharsAux_fuel n fuel (n + 1) h (by omega)

theorem charsToNatAux_natToChars (n : Nat) : ∀ acc rest,
    charsToNatAux (natToChars n ++ rest) acc =
      charsToNatAux rest (acc * 10 ^ (natToChars n).length + n) := by
  induction n using Nat.strong_induction_on with
  | _ n ih =>
    intro acc rest
    by_cases h10 : n < 10
    · have he : natToChars n = [digitChar n] := by
        simp [natToChars, natToCharsAux, h10]
      simp [he, charsToNatAux, digitVal?_digitChar n h10]
    · have hpos : 0 < n := by omega
      have hdiv : n / 10 < n := Nat.div_lt_self hpos (by omega)
      have he : natToChars n = natToChars (n / 10) ++ [digitChar (n % 10)] := by
        rw [natToChars, natToCharsAux]
        simp only [if_neg h10]
        rw [natToCharsAux_eq n (n / 10) hdiv]
      rw [he, List.append_assoc, ih (n / 10) hdiv, List.singleton_append,
        charsToNatAux]
      have hm : n % 10 < 10 := Nat.mod_lt _ (by omega)
      rw [digitVal?_digitChar _ hm]
      dsimp only
      have hlen : (natToChars (n / 10) ++ [digitChar (n % 10)]).length =
          (natToChars (n / 10)).length + 1 := by simp
      rw [hlen]
      have harith : (acc * 10 ^ (natToChars (n / 10)).length + n / 10) * 10 + n % 10 =
          acc * 10 ^ ((natToChars (n / 10)).length + 1) + n := by
        have := Nat.div_add_mod n 10
        ring_nf
        omega
      rw [harith]

theorem natToChars_ne_nil (n : Nat) : natToChars n ≠ [] := by
  by_cases h10 : n < 10
  · simp [natToChars, natToCharsAux, h10]
  · have hdiv : n / 10 < n := Nat.div_lt_self (by omega) (by omega)
    rw [natToChars, natToCharsAux]
    simp [h10]

/-- `fromisoformat` inverts `isoformat`: the datetime round-trip the
envelope serialization relies on. -/
theorem dtFromIso_dtIso (t : DateTime) : dtFromIso (dtIso t) = some t := by
  have hne := natToChars_ne_nil t
  have h := charsToNatAux_natToChars t 0 []
  simp only [List.append_nil] at h
  rw [dtFromIso, dtIso]
  show charsToNat? (natToChars t) = some t
  rw [charsToNat?, if_neg (by simpa using hne), h]
  simp [charsToNatAux]

/-! ## `mcp_envelope.py`: the MCP envelope protocol -/

/-- `EnvelopeSchema`: the recognized schema values. -/
def envelopeSchemas : List String :=
  ["mcp_envelope_v1", "event_v1", "verified_event_v1", "incident_brief_v1",
   "triaged_incident_v1", "dispatch_v1"]

/-- `MCPEnvelope` dataclass.  Python does not enforce the `str` annotations,
and `from_dict` copies raw dict values into the fields, so every field other
than `timestamp` (always produced by `fromisoformat`, hence a datetime) is a
raw `PyVal`. -/
structure MCPEnvelope where
  schema : PyVal
  session_id : PyVal
  timestamp : DateTime
  source_agent : PyVal
  payload : PyVal
  metadata : PyVal

/-- `MCPEnvelope.to_dict`. -/
def MCPEnvelope.to_dict (e : MCPEnvelope) : List (String × PyVal) :=
  [("schema", e.schema),
   ("session_id", e.session_id),
   ("timestamp", .pstr (dtIso e.timestamp)),
   ("source_agent", e.source_agent),
   ("payload", e.payload),
   ("metadata", e.metadata)]

def envelopeRequiredFields : List String :=
  ["schema", "session_id", "timestamp", "source_agent", "payload"]

/-- `MCPEnvelope.from_dict`: raises `ValueError` on missing fields, and
`fromisoformat` raises on a timestamp that is not a datetime rendering; both
are modelled as `Except.error`. -/
def MCPEnvelope.from_dict (data : List (String × PyVal)) :
    Except String MCPEnvelope :=
  let missing := envelopeRequiredFields.filter (fun f => !assocHas data f)
  if missing.isEmpty then
    match assocGet data "timestamp" with
    | some (.pstr ts) =>
        match dtFromIso ts with
        | some t =>
            .ok { schema := (assocGet data "schema").getD .pnone
                  session_id := (assocGet data "session_id").getD .pnone
                  timestamp := t
                  source_agent := (assocGet data "source_agent").getD .pnone
                  payload := (assocGet data "payload").getD .pnone
                  metadata := (assocGet data "metadata").getD (.pdict []) }
        | none => .error ("Invalid isoformat string: " ++ ts)
    | some v => .error ("fromisoformat: argument must be str, not " ++ pyStr v)
    | none => .error "Missing required fields: timestamp"
  else .error ("Missing required fields: " ++ String.intercalate ", " missing)

/-- `MCPEnvelope.validate_schema`: membership of `schema` in the
`EnvelopeSchema` enum (a non-string never matches a `str`-enum value). -/
def MCPEnvelope.validate_schema (e : MCPEnvelope) : Bool :=
  match e.schema with
  | .pstr s => envelopeSchemas.contains s
  | _ => false

/-- `MCPEnvelope.validate`, check for check in source order. -/
def MCPEnvelope.validate (e : MCPEnvelope) : Bool × Option String :=
  if !e.validate_schema then (false, some ("Invalid schema: " ++ pyStr e.schema))
  else if !pyTruthy e.session_id then (false, some "Missing session_id")
  else if !pyTruthy e.source_agent then (false, some "Missing source_agent")
  else if !pyTruthy e.payload then (false, some "Missing payload")
  else
    match e.payload with
    | .pdict kvs =>
        if !assocHas kvs "type" then (false, some "Payload missing 'type' field")
        else if !assocHas kvs "data" then (false, some "Payload missing 'data' field")
        else (true, none)
    | _ => (false, some "Payload must be a dictionary")

/-- `parse_envelope`: `(envelope, error)` pair; exactly one side is set. -/
def parse_envelope (data : List (String × PyVal)) :
    Option MCPEnvelope × Option String :=
  match MCPEnvelope.from_dict data with
  | .error e => (none, some e)
  | .ok env =>
      match env.validate with
      | (true, _) => (some env, none)
      | (false, msg) => (none, msg)

theorem validate_fst_iff_snd (e : MCPEnvelope) :
    (e.validate.1 = true) ↔ e.validate.2 = none := by
  unfold MCPEnvelope.validate
  split <;> try simp
  split <;> try simp
  split <;> try simp
  split <;> try simp
  split <;> [skip; simp]
  split <;> try simp
  split <;> simp

theorem from_dict_to_dict (e : MCPEnvelope) :
    MCPEnvelope.from_dict e.to_dict = .ok e := by
  unfold MCPEnvelope.from_dict MCPEnvelope.to_dict
  simp [envelopeRequiredFields, assocHas, assocGet, dtFromIso_dtIso]

/-- C3: for every valid envelope `e` (non-empty `session_id` and
`source_agent`, recognized schema, payload holding both `type` and `data` —
exactly the checks of `MCPEnvelope.validate`), parsing the serialization of
`e` yields `e` itself with no error; and for every input, `parse_envelope`
returns an envelope iff it returns no error, so an invalid input yields a
specific error and no (partially constructed) envelope object. -/
theorem C3_envelope_roundtrip :
    (∀ e : MCPEnvelope, e.validate.1 = true →
        parse_envelope e.to_dict = (some e, none)) ∧
    (∀ d : List (String × PyVal),
        (parse_envelope d).1 = none ↔ ((parse_envelope d).2).isSome = true) := by
  constructor
  · intro e hv
    have hsnd : e.validate.2 = none := (validate_fst_iff_snd e).mp hv
    have hval : e.validate = (true, none) := by
      rw [← hv, ← hsnd]
    unfold parse_envelope
    rw [from_dict_to_dict]
    dsimp only
    rw [hval]
  · intro d
    unfold parse_envelope
    cases hfd : MCPEnvelope.from_dict d with
    | error err => simp
    | ok env =>
        have hiff := validate_fst_iff_snd env
        cases hvv : env.validate with
        | mk b m =>
            rw [hvv] at hiff
            cases b with
            | true => dsimp only; rw [hvv]; simp
            | false =>
                have hm : m ≠ none := by
                  intro hcon
                  simp [hcon] at hiff
                dsimp only
                rw [hvv]
                simp [Option.isSome_iff_ne_none, hm]

/-- Concrete valid envelope used to witness C3. -/
def envelopeSample : MCPEnvelope :=
  { schema := .pstr "event_v1"
    session_id := .pstr "sess-1"
    timestamp := 1700000000
    source_agent := .pstr "ingest"
    payload := .pdict [("type", .pstr "event"), ("data", .pdict [])]
    metadata := .pdict [] }

/-- Witness for C3 at a concrete valid envelope. -/
theorem C3_envelope_roundtrip_witness :
    envelopeSample.validate.1 = true ∧
      parse_envelope envelopeSample.to_dict = (some envelopeSample, none) :=
  ⟨by decide, C3_envelope_roundtrip.1 envelopeSample (by decide)⟩

/-! ## `agent_utils.py`: A2A requests and the communicator's retry loop -/

/-- `A2ARequest` dataclass (`retry_delay` only scales sleeps; omitted). -/
structure A2ARequest where
  agent_url : String
  envelope : PyVal
  timeout : Nat := 30
  max_retries : Nat := 3

/-- `A2AResponse` dataclass (`response_time` is a float used only for
logging; omitted). -/
structure A2AResponse where
  success : Bool
  status_code : Int
  data : Option PyVal := none
  error : Option String := none

/-- Outcome of one HTTP POST performed by
`A2ACommunicator.send_a2a_request`, as seen at each attempt. -/
inductive HttpOutcome where
  | ok (data : PyVal)
  | httpErr (code : Int) (text : String)
  | timeout
  | connErr (msg : String)
  | unexpected (msg : String)

/-- `"needle" in haystack` on Python strings. -/
def strContains (hay needle : String) : Bool := decide (needle.data <:+: hay.data)

/-- The attempt loop of `A2ACommunicator.send_a2a_request`.  `attempt` is
the loop variable of `for attempt in range(max_retries + 1)` and `fuel` the
number of iterations left; the `fuel = 0` case is the fall-through end of
the loop, unreachable because `fuel` starts at `max_retries + 1 ≥ 1` and
every retry branch checks `attempt < max_retries` first.  The second result
component counts HTTP attempts made. -/
def sendLoop (net : Nat → HttpOutcome) (maxRetries timeoutSecs : Nat) :
    Nat → Nat → A2AResponse × Nat
  | _, 0 => ({ success := false, status_code := 0 }, 0)
  | attempt, fuel + 1 =>
      match net attempt with
      | .ok d => ({ success := true, status_code := 200, data := some d }, 1)
      | .httpErr code text =>
          if attempt < maxRetries then
            let (r, n) := sendLoop net maxRetries timeoutSecs (attempt + 1) fuel
            (r, n + 1)
          else
            ({ success := false, status_code := code,
               error := some ("HTTP " ++ toString code ++ ": " ++ text) }, 1)
      | .timeout =>
          if attempt < maxRetries then
            let (r, n) := sendLoop net maxRetries timeoutSecs (attempt + 1) fuel
            (r, n + 1)
          else
            ({ success := false, status_code := 0,
               error := some ("Request timed out after " ++ toString timeoutSecs ++ "s") }, 1)
      | .connErr msg =>
          if attempt < maxRetries then
            let (r, n) := sendLoop net maxRetries timeoutSecs (attempt + 1) fuel
            (r, n + 1)
      else
            ({ success := false, status_code := 0,
               error := some ("Connection error: " ++ msg) }, 1)
      | .unexpected msg =>
          ({ success := false, status_code := 0,
             error := some ("Unexpected error: " ++ msg) }, 1)

/-- `A2ACommunicator.send_a2a_request`: response plus HTTP attempt count. -/
def send_a2a_request (net : Nat → HttpOutcome) (req : A2ARequest) :
    A2AResponse × Nat :=
  sendLoop net req.max_retries req.timeout 0 (req.max_retries + 1)

/-! ## `error_recovery.py`: circuit breaker -/

inductive CBState where
  | CLOSED
  | OPEN
  | HALF_OPEN
deriving DecidableEq, Repr

/-- `CircuitBreaker.__init__` state (default `failure_threshold=5`,
`timeout=60`).  `last_failure_time` holds a `time.time()` reading. -/
structure CircuitBreaker where
  failure_threshold : Nat := 5
  timeout : Nat := 60
  failure_count : Nat := 0
  last_failure_time : Option Int := none
  state : CBState := .CLOSED
deriving DecidableEq, Repr

/-- Observable outcome of one `CircuitBreaker.call`. -/
inductive CBResult where
  | blocked
  | succeeded
  | failed
deriving DecidableEq, Repr

/-- The body of `CircuitBreaker.call` from the `try:` on (the wrapped
function has already been admitted).  `funcOk` is whether `func` returns
normally or raises.  The last component records the state in which `func`
was invoked. -/
def CircuitBreaker.invoke (cb : CircuitBreaker) (now : Int) (funcOk : Bool) :
    CircuitBreaker × CBResult × Option CBState :=
  if funcOk then
    if cb.state = .HALF_OPEN then
      ({ cb with state := .CLOSED, failure_count := 0 }, .succeeded, some .HALF_OPEN)
    else (cb, .succeeded, some cb.state)
  else
    let fc := cb.failure_count + 1
    let cb' := { cb with failure_count := fc, last_failure_time := some now }
    if cb.failure_threshold ≤ fc then
      ({ cb' with state := .OPEN }, .failed, some cb.state)
    else (cb', .failed, some cb.state)

/-- `CircuitBreaker.call`: the `OPEN` guard, then the invocation.  In the
`OPEN` branch `last_failure_time` is always set (Python would raise a
`TypeError` otherwise); the `none` case is unreachable for reachable
breakers, see `reachable_open_invariant`. -/
def CircuitBreaker.call (cb : CircuitBreaker) (now : Int) (funcOk : Bool) :
    CircuitBreaker × CBResult × Option CBState :=
  if cb.state = .OPEN then
    match cb.last_failure_time with
    | none => (cb, .blocked, none)
    | some t =>
        if now - t > (cb.timeout : Int) then
          CircuitBreaker.invoke { cb with state := .HALF_OPEN } now funcOk
        else (cb, .blocked, none)
  else CircuitBreaker.invoke cb now funcOk

/-- Breaker states reachable from a freshly constructed breaker by `call`
steps. -/
inductive CircuitBreaker.Reachable : CircuitBreaker → Prop where
  | init (threshold timeoutSecs : Nat) :
      Reachable { failure_threshold := threshold, timeout := timeoutSecs }
  | step (cb : CircuitBreaker) (now : Int) (funcOk : Bool) :
      Reachable cb → Reachable (cb.call now funcOk).1

/-- Applying a sequence of `(now, funcOk)` calls to a breaker. -/
def CircuitBreaker.iterate (cb : CircuitBreaker) (steps : List (Int × Bool)) :
    CircuitBreaker :=
  steps.foldl (fun cb s => (cb.call s.1 s.2).1) cb

/-- Failure count of a step sequence. -/
def failSteps (steps : List (Int × Bool)) : Nat :=
  steps.countP (fun s => !s.2)

/-- The invariant tying `OPEN` to an over-threshold failure count and a
recorded failure time. -/
def CBInv (cb : CircuitBreaker) : Prop :=
  cb.state = .OPEN →
    cb.failure_threshold ≤ cb.failure_count ∧ cb.last_failure_time.isSome

theorem invoke_CBInv (cb : CircuitBreaker) (now : Int) (funcOk : Bool)
    (h : CBInv cb) : CBInv (cb.invoke now funcOk).1 := by
  unfold CircuitBreaker.invoke
  by_cases hok : funcOk = true
  · by_cases hho : cb.state = .HALF_OPEN
    · simp [hok, hho, CBInv]
    · simpa [hok, hho, CBInv] using h
  · by_cases hth : cb.failure_threshold ≤ cb.failure_count + 1
    · simp [hok, hth, CBInv]
    · intro ho
      simp only [hok, if_false, hth, if_neg, Bool.false_eq_true] at ho ⊢
      rcases h ho with ⟨h1, _⟩
      exact ⟨by omega, by simp⟩

theorem call_CBInv (cb : CircuitBreaker) (now : Int) (funcOk : Bool)
    (h : CBInv cb) : CBInv (cb.call now funcOk).1 := by
  unfold CircuitBreaker.call
  by_cases hst : cb.state = .OPEN
  · rw [if_pos hst]
    cases hlf : cb.last_failure_time with
    | none => simpa [CBInv] using h
    | some t =>
        dsimp only
        by_cases htime : now - t > (cb.timeout : Int)
        · rw [if_pos htime]
          apply invoke_CBInv
          intro _
          rcases h hst with ⟨h1, _⟩
          exact ⟨h1, by simp⟩
        · rw [if_neg htime]
          exact h
  · rw [if_neg hst]
    exact invoke_CBInv cb now funcOk h

theorem reachable_open_invariant (cb : CircuitBreaker)
    (h : cb.Reachable) : CBInv cb := by
  induction h with
  | init threshold timeoutSecs => intro ho; simp at ho
  | step cb now funcOk hr ih => exact call_CBInv cb now funcOk ih

theorem call_not_open (cb : CircuitBreaker) (now : Int) (funcOk : Bool)
    (h : ¬cb.state = .OPEN) : cb.call now funcOk = cb.invoke now funcOk := by
  unfold CircuitBreaker.call
  rw [if_neg h]

theorem call_closed_success (cb : CircuitBreaker) (now : Int)
    (h : cb.state = .CLOSED) : cb.call now true = (cb, .succeeded, some .CLOSED) := by
  rw [call_not_open _ _ _ (by simp [h])]
  unfold CircuitBreaker.invoke
  simp [h]

theorem call_closed_failure (cb : CircuitBreaker) (now : Int)
    (h : cb.state = .CLOSED) :
    cb.call now false =
      ({ cb with
          failure_count := cb.failure_count + 1
          last_failure_time := some now
          state := if cb.failure_threshold ≤ cb.failure_count + 1 then .OPEN
                   else .CLOSED },
       .failed, some .CLOSED) := by
  rw [call_not_open _ _ _ (by simp [h])]
  unfold CircuitBreaker.invoke
  by_cases hth : cb.failure_threshold ≤ cb.failure_count + 1
  · simp [hth, h]
  · simp [hth, h]

theorem call_blocked_of_not_elapsed (cb : CircuitBreaker) (now t : Int)
    (funcOk : Bool) (hst : cb.state = .OPEN) (hlf : cb.last_failure_time = some t)
    (htime : ¬now - t > (cb.timeout : Int)) :
    cb.call now funcOk = (cb, .blocked, none) := by
  unfold CircuitBreaker.call
  rw [if_pos hst, hlf]
  dsimp only
  rw [if_neg htime]

theorem call_open_elapsed (cb : CircuitBreaker) (now t : Int) (funcOk : Bool)
    (hst : cb.state = .OPEN) (hlf : cb.last_failure_time = some t)
    (htime : now - t > (cb.timeout : Int)) :
    cb.call now funcOk =
      CircuitBreaker.invoke { cb with state := .HALF_OPEN } now funcOk := by
  unfold CircuitBreaker.call
  rw [if_pos hst, hlf]
  dsimp only
  rw [if_pos htime]

theorem iterate_cons (cb : CircuitBreaker) (s : Int × Bool)
    (steps : List (Int × Bool)) :
    cb.iterate (s :: steps) = ((cb.call s.1 s.2).1).iterate steps := by
  simp [CircuitBreaker.iterate]

theorem iterate_append (cb : CircuitBreaker) (l1 l2 : List (Int × Bool)) :
    cb.iterate (l1 ++ l2) = (cb.iterate l1).iterate l2 := by
  simp [CircuitBreaker.iterate]

/-- While the accumulated failures stay below the threshold, a `CLOSED`
breaker stays `CLOSED` through any interleaving of successes and failures,
and its `failure_count` is the running number of failures: successes in
`CLOSED` do not reset it. -/
theorem closed_steps (steps : List (Int × Bool)) : ∀ cb : CircuitBreaker,
    cb.state = .CLOSED →
    cb.failure_count + failSteps steps < cb.failure_threshold →
    (cb.iterate steps).state = .CLOSED ∧
    (cb.iterate steps).failure_count = cb.failure_count + failSteps steps ∧
    (cb.iterate steps).failure_threshold = cb.failure_threshold := by
  induction steps with
  | nil =>
      intro cb hst hlt
      simpa [CircuitBreaker.iterate, failSteps] using hst
  | cons s rest ih =>
      intro cb hst hlt
      obtain ⟨t, ok⟩ := s
      cases ok with
      | true =>
          have hcount : failSteps ((t, true) :: rest) = failSteps rest := by
            simp [failSteps, List.countP_cons]
          rw [iterate_cons]
          simp only [call_closed_success cb t hst]
          have := ih cb hst (by rw [hcount] at hlt; omega)
          simpa [hcount] using this
      | false =>
          have hcount : failSteps ((t, false) :: rest) = failSteps rest + 1 := by
            simp [failSteps, List.countP_cons]
          rw [iterate_cons]
          rw [call_closed_failure cb t hst]
          rw [hcount] at hlt
          have hth : ¬cb.failure_threshold ≤ cb.failure_count + 1 := by omega
          have hres := ih { cb with
              failure_count := cb.failure_count + 1
              last_failure_time := some t
              state := .CLOSED } rfl (by simp; omega)
          simp only [if_neg hth] at *
          refine ⟨hres.1, ?_, ?_⟩
          · rw [hcount]
            simp only [hres.2.1]
            omega
          · rw [hres.2.2]

/-- A sequence of failing calls at the given times. -/
def allFail (ts : List Int) : List (Int × Bool) := ts.map (fun t => (t, false))

theorem failSteps_allFail (ts : List Int) : failSteps (allFail ts) = ts.length := by
  induction ts with
  | nil => rfl
  | cons h t ih =>
      simp [failSteps, allFail, List.countP_cons] at ih ⊢

theorem iterate_nil (cb : CircuitBreaker) : cb.iterate [] = cb := rfl

theorem invoke_count_zero (cb : CircuitBreaker) (now : Int) (funcOk : Bool)
    (hpos : 0 < cb.failure_count)
    (hzero : (cb.invoke now funcOk).1.failure_count = 0) :
    funcOk = true ∧ (cb.invoke now funcOk).2.2 = some .HALF_OPEN := by
  unfold CircuitBreaker.invoke at hzero ⊢
  by_cases hok : funcOk = true
  · by_cases hh : cb.state = .HALF_OPEN
    · simp [hok, hh]
    · simp [hok, hh] at hzero
      all_goals omega
  · exfalso
    by_cases hth : cb.failure_threshold ≤ cb.failure_count + 1 <;>
      simp [hok, hth] at hzero

/-- C5: the circuit breaker state machine.  (a) a fresh breaker opens after
exactly `threshold` consecutive failures and not before; (b) while `OPEN`
and less than `recovery_timeout` has elapsed since the last failure the
wrapped call is never invoked; (c) the first call once the timeout has
elapsed runs in `HALF_OPEN` and, on success, the state becomes `CLOSED`
with `failure_count` reset to 0; (d) a single failure while `HALF_OPEN`
returns the state to `OPEN` (for any reachable breaker). -/
theorem C5_circuit_breaker_lifecycle :
    (∀ (threshold timeoutSecs : Nat) (ts : List Int),
      0 < threshold → ts.length ≤ threshold →
      (CircuitBreaker.iterate ⟨threshold, timeoutSecs, 0, none, .CLOSED⟩
          (allFail ts)).state =
        if ts.length = threshold then .OPEN else .CLOSED) ∧
    (∀ (cb : CircuitBreaker) (now t : Int) (funcOk : Bool),
      cb.state = .OPEN → cb.last_failure_time = some t →
      now - t < (cb.timeout : Int) →
      cb.call now funcOk = (cb, .blocked, none)) ∧
    (∀ (cb : CircuitBreaker) (now t : Int),
      cb.state = .OPEN → cb.last_failure_time = some t →
      (cb.timeout : Int) < now - t →
      (cb.call now true).2.2 = some .HALF_OPEN ∧
      (cb.call now true).1.state = .CLOSED ∧
      (cb.call now true).1.failure_count = 0) ∧
    (∀ (cb : CircuitBreaker) (now t : Int),
      cb.Reachable → cb.state = .OPEN → cb.last_failure_time = some t →
      (cb.timeout : Int) < now - t →
      (cb.call now false).2.2 = some .HALF_OPEN ∧
      (cb.call now false).1.state = .OPEN) := by
  refine ⟨?_, ?_, ?_, ?_⟩
  · intro threshold timeoutSecs ts hpos hlen
    by_cases heq : ts.length = threshold
    · rw [if_pos heq]
      rcases List.eq_nil_or_concat ts with hnil | ⟨l', a, hconcat⟩
      · subst hnil
        simp at heq
        omega
      · subst hconcat
        rw [List.concat_eq_append] at heq ⊢
        have hAll : allFail (l' ++ [a]) = allFail l' ++ [(a, false)] := by
          simp [allFail]
        have hlen' : l'.length + 1 = threshold := by
          simpa using heq
        rw [hAll, iterate_append]
        have hcs := closed_steps (allFail l')
          ⟨threshold, timeoutSecs, 0, none, .CLOSED⟩ rfl
          (by simp [failSteps_allFail]; omega)
        rw [iterate_cons, iterate_nil,
          call_closed_failure _ _ hcs.1]
        have hcnt : (CircuitBreaker.iterate
            ⟨threshold, timeoutSecs, 0, none, .CLOSED⟩
            (allFail l')).failure_count = l'.length := by
          rw [hcs.2.1]
          simp [failSteps_allFail]
        have hthr : (CircuitBreaker.iterate
            ⟨threshold, timeoutSecs, 0, none, .CLOSED⟩
            (allFail l')).failure_threshold = threshold := by
          rw [hcs.2.2]
        dsimp only
        rw [hcnt, hthr, if_pos (by omega)]
    · rw [if_neg heq]
      exact (closed_steps (allFail ts) _ rfl
        (by simp [failSteps_allFail]; omega)).1
  · intro cb now t funcOk hst hlf htime
    exact call_blocked_of_not_elapsed cb now t funcOk hst hlf (by omega)
  · intro cb now t hst hlf htime
    rw [call_open_elapsed cb now t true hst hlf (by omega)]
    unfold CircuitBreaker.invoke
    simp
  · intro cb now t hr hst hlf htime
    have hinv := reachable_open_invariant cb hr hst
    rw [call_open_elapsed cb now t false hst hlf (by omega)]
    unfold CircuitBreaker.invoke
    have hth : cb.failure_threshold ≤ cb.failure_count + 1 := by omega
    simp [hth]

/-- Witness for C5 at concrete breakers: a threshold-2 breaker opened by
two failures; a blocked call 30s after a failure; a half-open probe 100s
after; and a reachable open breaker whose probe fails. -/
theorem C5_circuit_breaker_lifecycle_witness :
    ((CircuitBreaker.iterate ⟨2, 60, 0, none, .CLOSED⟩
        (allFail [0, 1])).state =
      if ([0, 1] : List Int).length = 2 then .OPEN else .CLOSED) ∧
    (CircuitBreaker.call ⟨2, 60, 2, some 0, .OPEN⟩ 30 true =
      (⟨2, 60, 2, some 0, .OPEN⟩, .blocked, none)) ∧
    ((CircuitBreaker.call ⟨2, 60, 2, some 0, .OPEN⟩ 100 true).2.2 =
        some .HALF_OPEN ∧
      (CircuitBreaker.call ⟨2, 60, 2, some 0, .OPEN⟩ 100 true).1.state =
        .CLOSED ∧
      (CircuitBreaker.call ⟨2, 60, 2, some 0, .OPEN⟩ 100 true).1.failure_count
        = 0) ∧
    (((CircuitBreaker.call ⟨1, 60, 0, none, .CLOSED⟩ 0 false).1.call 100
        false).2.2 = some .HALF_OPEN ∧
      ((CircuitBreaker.call ⟨1, 60, 0, none, .CLOSED⟩ 0 false).1.call 100
        false).1.state = .OPEN) :=
  ⟨C5_circuit_breaker_lifecycle.1 2 60 [0, 1] (by decide) (by decide),
   C5_circuit_breaker_lifecycle.2.1 ⟨2, 60, 2, some 0, .OPEN⟩ 30 0 true rfl rfl
     (by decide),
   C5_circuit_breaker_lifecycle.2.2.1 ⟨2, 60, 2, some 0, .OPEN⟩ 100 0 rfl rfl
     (by decide),
   C5_circuit_breaker_lifecycle.2.2.2
     (CircuitBreaker.call ⟨1, 60, 0, none, .CLOSED⟩ 0 false).1 100 0
     (CircuitBreaker.Reachable.step _ 0 false
       (CircuitBreaker.Reachable.init 1 60))
     (by decide) (by decide) (by decide)⟩

/-- C6: a call arriving while the breaker is `OPEN` with less than
`recovery_timeout` elapsed since `last_failure_time` is rejected as blocked
without invoking the wrapped function, and `failure_count`,
`last_failure_time` and `state` are all unchanged: a blocked request is not
counted as a new failure. -/
theorem C6_blocked_request_counts_no_failure (cb : CircuitBreaker)
    (now t : Int) (funcOk : Bool) (hst : cb.state = .OPEN)
    (hlf : cb.last_failure_time = some t)
    (htime : now - t < (cb.timeout : Int)) :
    (cb.call now funcOk).2.1 = .blocked ∧
    (cb.call now funcOk).2.2 = none ∧
    (cb.call now funcOk).1.failure_count = cb.failure_count ∧
    (cb.call now funcOk).1.last_failure_time = cb.last_failure_time ∧
    (cb.call now funcOk).1.state = cb.state := by
  rw [call_blocked_of_not_elapsed cb now t funcOk hst hlf (by omega)]
  exact ⟨rfl, rfl, rfl, rfl, rfl⟩

/-- Witness for C6: a call 30s after the last failure of a 60s-timeout
open breaker. -/
theorem C6_blocked_request_counts_no_failure_witness :
    (CircuitBreaker.call ⟨5, 60, 5, some 0, .OPEN⟩ 30 true).2.1 = .blocked ∧
    (CircuitBreaker.call ⟨5, 60, 5, some 0, .OPEN⟩ 30 true).2.2 = none ∧
    (CircuitBreaker.call ⟨5, 60, 5, some 0, .OPEN⟩ 30 true).1.failure_count =
      (⟨5, 60, 5, some 0, .OPEN⟩ : CircuitBreaker).failure_count ∧
    (CircuitBreaker.call ⟨5, 60, 5, some 0, .OPEN⟩ 30 true).1.last_failure_time
      = (⟨5, 60, 5, some 0, .OPEN⟩ : CircuitBreaker).last_failure_time ∧
    (CircuitBreaker.call ⟨5, 60, 5, some 0, .OPEN⟩ 30 true).1.state =
      (⟨5, 60, 5, some 0, .OPEN⟩ : CircuitBreaker).state :=
  C6_blocked_request_counts_no_failure ⟨5, 60, 5, some 0, .OPEN⟩ 30 0 true
    rfl rfl (by decide)

/-- C10: a successful call in `CLOSED` leaves the breaker exactly as it
was; `failure_count` is zeroed only by a success invoked in `HALF_OPEN`;
hence failures separated by arbitrarily many `CLOSED`-state successes
accumulate monotonically toward the threshold and a final failure opens
the breaker without the failures being consecutive. -/
theorem C10_nonconsecutive_failures_accumulate :
    (∀ (cb : CircuitBreaker) (now : Int), cb.state = .CLOSED →
      cb.call now true = (cb, .succeeded, some .CLOSED)) ∧
    (∀ (cb : CircuitBreaker) (now : Int) (funcOk : Bool),
      0 < cb.failure_count → (cb.call now funcOk).1.failure_count = 0 →
      funcOk = true ∧ (cb.call now funcOk).2.2 = some .HALF_OPEN) ∧
    (∀ (cb : CircuitBreaker) (steps : List (Int × Bool)), cb.state = .CLOSED →
      cb.failure_count + failSteps steps < cb.failure_threshold →
      (cb.iterate steps).state = .CLOSED ∧
      (cb.iterate steps).failure_count = cb.failure_count + failSteps steps) ∧
    (∀ (cb : CircuitBreaker) (steps : List (Int × Bool)) (t : Int),
      cb.state = .CLOSED →
      cb.failure_count + failSteps steps + 1 = cb.failure_threshold →
      (cb.iterate (steps ++ [(t, false)])).state = .OPEN) := by
  refine ⟨?_, ?_, ?_, ?_⟩
  · intro cb now h
    exact call_closed_success cb now h
  · intro cb now funcOk hpos hzero
    by_cases hst : cb.state = .OPEN
    · cases hlf : cb.last_failure_time with
      | none =>
          have hc : cb.call now funcOk = (cb, .blocked, none) := by
            unfold CircuitBreaker.call
            rw [if_pos hst, hlf]
          rw [hc] at hzero
          dsimp only at hzero
          exact absurd hzero (by omega)
      | some t =>
          by_cases htime : now - t > (cb.timeout : Int)
          · have hc := call_open_elapsed cb now t funcOk hst hlf htime
            rw [hc] at hzero ⊢
            exact invoke_count_zero _ now funcOk (by simpa using hpos) hzero
          · have hc := call_blocked_of_not_elapsed cb now t funcOk hst hlf htime
            rw [hc] at hzero
            dsimp only at hzero
            exact absurd hzero (by omega)
    · rw [call_not_open cb now funcOk hst] at hzero ⊢
      exact invoke_count_zero cb now funcOk hpos hzero
  · intro cb steps hst hlt
    exact ⟨(closed_steps steps cb hst hlt).1, (closed_steps steps cb hst hlt).2.1⟩
  · intro cb steps t hst heq
    rw [iterate_append]
    have hcs := closed_steps steps cb hst (by omega)
    rw [iterate_cons, iterate_nil, call_closed_failure _ _ hcs.1]
    dsimp only
    rw [hcs.2.1, hcs.2.2, if_pos (by omega)]

/-- Witness for C10: a threshold-3 breaker: a success in `CLOSED` changes
nothing; a half-open probe success zeroes the count; failures interleaved
with successes accumulate and a final failure opens the breaker. -/
theorem C10_nonconsecutive_failures_accumulate_witness :
    (CircuitBreaker.call ⟨5, 60, 2, some 0, .CLOSED⟩ 10 true =
      (⟨5, 60, 2, some 0, .CLOSED⟩, .succeeded, some .CLOSED)) ∧
    (true = true ∧
      (CircuitBreaker.call ⟨2, 60, 2, some 0, .OPEN⟩ 100 true).2.2 =
        some .HALF_OPEN) ∧
    ((CircuitBreaker.iterate ⟨3, 60, 0, none, .CLOSED⟩
        [(0, false), (1, true), (2, false)]).state = .CLOSED ∧
      (CircuitBreaker.iterate ⟨3, 60, 0, none, .CLOSED⟩
        [(0, false), (1, true), (2, false)]).failure_count = 0 +
          failSteps [(0, false), (1, true), (2, false)]) ∧
    (CircuitBreaker.iterate ⟨3, 60, 0, none, .CLOSED⟩
        ([(0, false), (1, true), (2, false)] ++ [(3, false)])).state = .OPEN :=
  ⟨C10_nonconsecutive_failures_accumulate.1 ⟨5, 60, 2, some 0, .CLOSED⟩ 10 rfl,
   C10_nonconsecutive_failures_accumulate.2.1 ⟨2, 60, 2, some 0, .OPEN⟩ 100
     true (by decide) (by decide),
   C10_nonconsecutive_failures_accumulate.2.2.1 ⟨3, 60, 0, none, .CLOSED⟩
     [(0, false), (1, true), (2, false)] rfl (by decide),
   C10_nonconsecutive_failures_accumulate.2.2.2 ⟨3, 60, 0, none, .CLOSED⟩
     [(0, false), (1, true), (2, false)] 3 rfl (by decide)⟩

/-! ## `error_recovery.py`: the A2A retry handler and the dead-letter queue -/

/-- `FailedEvent` dataclass. -/
structure FailedEvent where
  event_id : String
  original_payload : PyVal
  target_agent : String
  target_url : String
  failure_reason : String
  failure_count : Nat
  first_failure : DateTime
  last_failure : DateTime
  retry_after : Option DateTime := none
  status : String := "pending"
  metadata : PyVal := .pdict []

/-- The retry-relevant part of `A2ARetryHandler._default_config` (the
delay/backoff/jitter entries only shape sleep durations). -/
structure RetryConfig where
  enable_dead_letter_queue : Bool := true

/-- `A2ARetryHandler._extract_agent_name`'s port table, in iteration
order. -/
def retryPortMapping : List (String × String) :=
  [("8001", "ingest"), ("8002", "verifier"), ("8003", "summarizer"),
   ("8004", "triage"), ("8005", "dispatcher")]

/-- `A2ARetryHandler._extract_agent_name`. -/
def extract_agent_name (url : String) : String :=
  match retryPortMapping.find? (fun p => strContains url (":" ++ p.1)) with
  | some p => p.2
  | none => "unknown"

/-- `str(x)` on the `last_error` variable (`Optional[str]`). -/
def optStr : Option String → String
  | none => "None"
  | some s => s

/-- One attempt of `A2ARetryHandler.execute_with_retry` is one call of
`self.communicator.send_a2a_request`; `comm i` is the result of the `i`-th
such call: a returned `A2AResponse` or a raised exception message.  The
loop returns the first successful response, threading `last_error`;
`fuel` counts the remaining iterations of
`for attempt in range(max_retries + 1)`.  The `Nat` component counts the
communicator calls made. -/
def executeWithRetryAux (comm : Nat → Except String A2AResponse) :
    Nat → Nat → Option String → Option A2AResponse × Option String × Nat
  | _, 0, lastErr => (none, lastErr, 0)
  | attempt, fuel + 1, lastErr =>
      match comm attempt with
      | .ok r =>
          if r.success then (some r, lastErr, 1)
          else
            let (res, le, n) := executeWithRetryAux comm (attempt + 1) fuel r.error
            (res, le, n + 1)
      | .error e =>
          let (res, le, n) := executeWithRetryAux comm (attempt + 1) fuel (some e)
          (res, le, n + 1)

/-- `A2ARetryHandler.execute_with_retry`: returns the response, the number
of communicator calls made, and the `FailedEvent`s enqueued into the dead
letter queue (`eventId` models the fresh `uuid4`, `now` the
`datetime.now()` readings). -/
def execute_with_retry (cfg : RetryConfig) (req : A2ARequest)
    (comm : Nat → Except String A2AResponse) (eventId : String)
    (now : DateTime) : A2AResponse × Nat × List FailedEvent :=
  match executeWithRetryAux comm 0 (req.max_retries + 1) none with
  | (some r, _, n) => (r, n, [])
  | (none, lastErr, n) =>
      let fe : FailedEvent :=
        { event_id := eventId
          original_payload := req.envelope
          target_agent := extract_agent_name req.agent_url
          target_url := req.agent_url
          failure_reason := "All " ++ toString (req.max_retries + 1) ++
            " attempts failed: " ++ optStr lastErr
          failure_count := req.max_retries + 1
          first_failure := now
          last_failure := now
          status := "pending" }
      ({ success := false, status_code := 0,
         error := some ("All " ++ toString (req.max_retries + 1) ++
           " attempts failed. Last error: " ++ optStr lastErr) },
       n,
       if cfg.enable_dead_letter_queue then [fe] else [])

/-- A communicator outcome that does not count as success. -/
def attemptFails : Except String A2AResponse → Prop
  | .ok r => r.success = false
  | .error _ => True

/-- The `last_error` recorded from an attempt outcome. -/
def attemptErr : Except String A2AResponse → Option String
  | .ok r => r.error
  | .error e => some e

theorem executeWithRetryAux_all_fail (comm : Nat → Except String A2AResponse) :
    ∀ (fuel attempt : Nat) (le : Option String),
    (∀ i, attempt ≤ i → i < attempt + fuel → attemptFails (comm i)) →
    executeWithRetryAux comm attempt fuel le =
      (none, if fuel = 0 then le else attemptErr (comm (attempt + fuel - 1)),
       fuel) := by
  intro fuel
  induction fuel with
  | zero => intro attempt le _; simp [executeWithRetryAux]
  | succ fuel ih =>
      intro attempt le hfail
      have hthis := hfail attempt (le_refl _) (by omega)
      rw [executeWithRetryAux]
      cases hc : comm attempt with
      | ok r =>
          rw [hc] at hthis
          have hrs : r.success = false := by
            simpa [attemptFails] using hthis
          dsimp only
          rw [if_neg (by simp [hrs])]
          rw [ih (attempt + 1) r.error
            (fun i h1 h2 => hfail i (by omega) (by omega))]
          dsimp only
          cases fuel with
          | zero => simp [hc, attemptErr]
          | succ f =>
              have h1 : ¬(f + 1 = 0) := by omega
              have h2 : ¬(f + 1 + 1 = 0) := by omega
              simp only [h1, h2, if_false]
              have hi : attempt + 1 + (f + 1) - 1 = attempt + (f + 1 + 1) - 1 := by
                omega
              rw [hi]
      | error e =>
          dsimp only
          rw [ih (attempt + 1) (some e)
            (fun i h1 h2 => hfail i (by omega) (by omega))]
          dsimp only
          cases fuel with
          | zero => simp [hc, attemptErr]
          | succ f =>
              have h1 : ¬(f + 1 = 0) := by omega
              have h2 : ¬(f + 1 + 1 = 0) := by omega
              simp only [h1, h2, if_false]
              have hi : attempt + 1 + (f + 1) - 1 = attempt + (f + 1 + 1) - 1 := by
                omega
              rw [hi]

/-- C4: against a target failing on every attempt, `execute_with_retry`
with `max_retries = N` makes exactly `N + 1` communicator calls ("attempts
the call up to `maxRetries + 1` times"); when DLQ integration is enabled
exactly one `FailedEvent` is enqueued, carrying `failure_count = N + 1` and
the last attempt's error inside its `failure_reason`; and the returned
failure response carries the attempt count and last error. -/
theorem C4_retry_bound (cfg : RetryConfig) (req : A2ARequest)
    (comm : Nat → Except String A2AResponse) (eventId : String)
    (now : DateTime)
    (hfail : ∀ i, i < req.max_retries + 1 → attemptFails (comm i)) :
    (execute_with_retry cfg req comm eventId now).2.1 = req.max_retries + 1 ∧
    (execute_with_retry cfg req comm eventId now).1.success = false ∧
    (execute_with_retry cfg req comm eventId now).1.error =
      some ("All " ++ toString (req.max_retries + 1) ++
        " attempts failed. Last error: " ++
        optStr (attemptErr (comm req.max_retries))) ∧
    (execute_with_retry cfg req comm eventId now).2.2 =
      (if cfg.enable_dead_letter_queue then
        [{ event_id := eventId
           original_payload := req.envelope
           target_agent := extract_agent_name req.agent_url
           target_url := req.agent_url
           failure_reason := "All " ++ toString (req.max_retries + 1) ++
             " attempts failed: " ++ optStr (attemptErr (comm req.max_retries))
           failure_count := req.max_retries + 1
           first_failure := now
           last_failure := now
           status := "pending" }]
       else []) := by
  have haux := executeWithRetryAux_all_fail comm (req.max_retries + 1) 0 none
    (fun i h1 h2 => hfail i (by omega))
  have hne : ¬(req.max_retries + 1 = 0) := by omega
  rw [if_neg hne] at haux
  have hidx : 0 + (req.max_retries + 1) - 1 = req.max_retries := by omega
  rw [hidx] at haux
  unfold execute_with_retry
  rw [haux]
  exact ⟨rfl, rfl, rfl, rfl⟩

/-- Concrete always-refusing request setup used to witness C4. -/
def retryReqSample : A2ARequest where
  agent_url := "http://localhost:8004"
  envelope := .pdict []
  max_retries := 2

/-- Communicator that raises a connection error on every attempt. -/
def commRefused : Nat → Except String A2AResponse :=
  fun _ => .error "Connection error: refused"

/-- Witness for C4: `max_retries = 2` against a connection-refused target;
three attempts, one DLQ row with `failure_count = 3`. -/
theorem C4_retry_bound_witness :
    (execute_with_retry {} retryReqSample commRefused "ev-1" 0).2.1 =
      retryReqSample.max_retries + 1 ∧
    (execute_with_retry {} retryReqSample commRefused "ev-1" 0).1.success
      = false ∧
    (execute_with_retry {} retryReqSample commRefused "ev-1" 0).1.error =
      some ("All " ++ toString (retryReqSample.max_retries + 1) ++
        " attempts failed. Last error: " ++
        optStr (attemptErr (commRefused retryReqSample.max_retries))) ∧
    (execute_with_retry {} retryReqSample commRefused "ev-1" 0).2.2 =
      (if ({} : RetryConfig).enable_dead_letter_queue then
        [{ event_id := "ev-1"
           original_payload := retryReqSample.envelope
           target_agent := extract_agent_name retryReqSample.agent_url
           target_url := retryReqSample.agent_url
           failure_reason := "All " ++
             toString (retryReqSample.max_retries + 1) ++
             " attempts failed: " ++
             optStr (attemptErr (commRefused retryReqSample.max_retries))
           failure_count := retryReqSample.max_retries + 1
           first_failure := 0
           last_failure := 0
           status := "pending" }]
       else []) :=
  C4_retry_bound {} retryReqSample commRefused "ev-1" 0
    (fun i _ => by simp [attemptFails, commRefused])

/-! ## `error_recovery.py`: `DeadLetterQueue` and `RecoveryJobProcessor`

The queue is the `failed_events` table keyed by the `event_id` primary key
(`NodupIds`); SQL timestamp comparisons on isoformat text columns agree
with the order on the underlying datetimes, modelled directly on the `Nat`
timestamps. -/

abbrev DLQ := List FailedEvent

/-- `DeadLetterQueue.update_event_status`: `UPDATE ... WHERE event_id = ?`,
row by row. -/
def update_event_status : DLQ → String → String → Option DateTime → DLQ
  | [], _, _, _ => []
  | ev :: rest, eventId, newStatus, retryAfter =>
      (if ev.event_id = eventId then
        { ev with status := newStatus, retry_after := retryAfter }
       else ev) :: update_event_status rest eventId newStatus retryAfter

/-- `DeadLetterQueue.remove_event`: `DELETE ... WHERE event_id = ?`. -/
def remove_event : DLQ → String → DLQ
  | [], _ => []
  | ev :: rest, eventId =>
      if ev.event_id = eventId then remove_event rest eventId
      else ev :: remove_event rest eventId

/-- The `REPLACE` half of `INSERT OR REPLACE`. -/
def replaceRow : DLQ → FailedEvent → DLQ
  | [], _ => []
  | ev :: rest, fe =>
      (if ev.event_id = fe.event_id then fe else ev) :: replaceRow rest fe

/-- `DeadLetterQueue.add_failed_event` (`INSERT OR REPLACE` on the
primary key). -/
def add_failed_event (q : DLQ) (fe : FailedEvent) : DLQ :=
  if q.any (fun ev => ev.event_id = fe.event_id) then replaceRow q fe
  else q ++ [fe]

/-- The `WHERE` clause of `get_pending_events`: `status = 'pending' OR
(status = 'retrying' AND retry_after <= now)` (SQL `NULL <= now` is not
true). -/
def isPendingRow (now : DateTime) (ev : FailedEvent) : Bool :=
  ev.status == "pending" ||
    (ev.status == "retrying" &&
      (match ev.retry_after with
       | some t => decide (t ≤ now)
       | none => false))

/-- `DeadLetterQueue.get_pending_events`: filter, `ORDER BY last_failure`,
`LIMIT`. -/
def get_pending_events (q : DLQ) (now : DateTime) (limit : Nat) :
    List FailedEvent :=
  ((q.filter (isPendingRow now)).insertionSort
    (fun a b => a.last_failure ≤ b.last_failure)).take limit

/-- `RecoveryJobProcessor` configuration attributes. -/
structure RecoveryConfig where
  max_recovery_attempts : Nat := 5
  recovery_backoff_base : Nat := 300

/-- One tick of the recovery loop: the `datetime.now()` reading and the
outcome of `communicator.send_a2a_request` for each resent event id. -/
structure RecoveryStep where
  now : DateTime
  send : String → A2AResponse

/-- The body of `for failed_event in pending_events` in
`RecoveryJobProcessor._process_recovery_jobs`.  The accumulator carries
the queue and the ids for which a resend was attempted.  The re-added
event is the in-memory snapshot, so its `status`/`retry_after` are the
snapshot's, overwriting the just-written `retrying` marker. -/
def processOne (cfg : RecoveryConfig) (step : RecoveryStep)
    (acc : DLQ × List String) (ev : FailedEvent) : DLQ × List String :=
  if cfg.max_recovery_attempts ≤ ev.failure_count then
    (update_event_status acc.1 ev.event_id "failed" none, acc.2)
  else
    let retryAfter := step.now +
      cfg.recovery_backoff_base * 2 ^ (ev.failure_count - 1)
    let q1 := update_event_status acc.1 ev.event_id "retrying" (some retryAfter)
    let resp := step.send ev.event_id
    if resp.success then
      (remove_event q1 ev.event_id, acc.2 ++ [ev.event_id])
    else
      (add_failed_event q1
        { ev with
            failure_count := ev.failure_count + 1
            last_failure := step.now
            failure_reason := "Recovery attempt failed: " ++ optStr resp.error },
       acc.2 ++ [ev.event_id])

/-- `RecoveryJobProcessor._process_recovery_jobs`: one tick over up to 10
pending events. -/
def process_recovery_jobs (cfg : RecoveryConfig) (q : DLQ)
    (step : RecoveryStep) : DLQ × List String :=
  (get_pending_events q step.now 10).foldl (processOne cfg step) (q, [])

/-- The recovery loop `while running: _process_recovery_jobs(); sleep`. -/
def runRecovery (cfg : RecoveryConfig) (q : DLQ) :
    List RecoveryStep → DLQ × List String
  | [] => (q, [])
  | st :: rest =>
      let r := process_recovery_jobs cfg q st
      let rr := runRecovery cfg r.1 rest
      (rr.1, r.2 ++ rr.2)

/-- Row lookup by primary key (`SELECT ... WHERE event_id = ?`). -/
def findRow : DLQ → String → Option FailedEvent
  | [], _ => none
  | ev :: rest, id => if ev.event_id = id then some ev else findRow rest id

/-- Primary-key uniqueness of the `failed_events` table. -/
def NodupIds (q : DLQ) : Prop := (q.map (·.event_id)).Nodup

theorem findRow_update_ne (q : DLQ) (tid id ns : String)
    (ra : Option DateTime) (h : tid ≠ id) :
    findRow (update_event_status q tid ns ra) id = findRow q id := by
  induction q with
  | nil => rfl
  | cons hd tl ih =>
      by_cases hhd : hd.event_id = tid
      · have h1 : ¬hd.event_id = id := by rw [hhd]; exact h
        simp [findRow, update_event_status, hhd, h1, h, ih]
      · by_cases h2 : hd.event_id = id
        · simp [findRow, update_event_status, hhd, h2, Ne.symm h]
        · simp [findRow, update_event_status, hhd, h2, ih]

theorem findRow_update_self (q : DLQ) (tid ns : String)
    (ra : Option DateTime) :
    findRow (update_event_status q tid ns ra) tid =
      (findRow q tid).map
        (fun r => { r with status := ns, retry_after := ra }) := by
  induction q with
  | nil => rfl
  | cons hd tl ih =>
      by_cases hhd : hd.event_id = tid
      · simp [findRow, update_event_status, hhd]
      · simp [findRow, update_event_status, hhd, ih]

theorem findRow_remove_ne (q : DLQ) (tid id : String) (h : tid ≠ id) :
    findRow (remove_event q tid) id = findRow q id := by
  induction q with
  | nil => rfl
  | cons hd tl ih =>
      by_cases hhd : hd.event_id = tid
      · have h1 : ¬hd.event_id = id := by rw [hhd]; exact h
        simp [findRow, remove_event, hhd, h1, h, ih]
      · by_cases h2 : hd.event_id = id
        · simp [findRow, remove_event, hhd, h2, Ne.symm h]
        · simp [findRow, remove_event, hhd, h2, ih]

theorem findRow_replace_ne (q : DLQ) (fe : FailedEvent) (id : String)
    (h : fe.event_id ≠ id) :
    findRow (replaceRow q fe) id = findRow q id := by
  induction q with
  | nil => rfl
  | cons hd tl ih =>
      by_cases hhd : hd.event_id = fe.event_id
      · have h1 : ¬hd.event_id = id := by rw [hhd]; exact h
        simp [findRow, replaceRow, hhd, h1, h, ih]
      · by_cases h2 : hd.event_id = id
        · simp [findRow, replaceRow, hhd, h2, Ne.symm h]
        · simp [findRow, replaceRow, hhd, h2, ih]

theorem findRow_append_one_ne (q : DLQ) (fe : FailedEvent) (id : String)
    (h : fe.event_id ≠ id) :
    findRow (q ++ [fe]) id = findRow q id := by
  induction q with
  | nil => simp [findRow, h]
  | cons hd tl ih =>
      by_cases h2 : hd.event_id = id
      · simp [findRow, h2]
      · simp [findRow, h2, ih]

theorem findRow_add_ne (q : DLQ) (fe : FailedEvent) (id : String)
    (h : fe.event_id ≠ id) :
    findRow (add_failed_event q fe) id = findRow q id := by
  unfold add_failed_event
  by_cases hany : q.any (fun ev => ev.event_id = fe.event_id) = true
  · rw [if_pos hany]
    exact findRow_replace_ne q fe id h
  · rw [if_neg hany]
    exact findRow_append_one_ne q fe id h

theorem ids_update (q : DLQ) (tid ns : String) (ra : Option DateTime) :
    (update_event_status q tid ns ra).map (·.event_id) =
      q.map (·.event_id) := by
  induction q with
  | nil => rfl
  | cons hd tl ih =>
      by_cases hhd : hd.event_id = tid
      · simp [update_event_status, hhd, ih]
      · simp [update_event_status, hhd, ih]

theorem nodup_update (q : DLQ) (tid ns : String) (ra : Option DateTime)
    (h : NodupIds q) : NodupIds (update_event_status q tid ns ra) := by
  unfold NodupIds
  rw [ids_update]
  exact h

theorem remove_sublist (q : DLQ) (tid : String) :
    List.Sublist (remove_event q tid) q := by
  induction q with
  | nil => simp [remove_event]
  | cons hd tl ih =>
      by_cases hhd : hd.event_id = tid
      · simp only [remove_event, if_pos hhd]
        exact ih.cons hd
      · simp only [remove_event, if_neg hhd]
        exact ih.cons₂ hd

theorem nodup_remove (q : DLQ) (tid : String) (h : NodupIds q) :
    NodupIds (remove_event q tid) :=
  List.Nodup.sublist ((remove_sublist q tid).map (fun e => e.event_id)) h

theorem ids_replace (q : DLQ) (fe : FailedEvent) :
    (replaceRow q fe).map (·.event_id) = q.map (·.event_id) := by
  induction q with
  | nil => rfl
  | cons hd tl ih =>
      by_cases hhd : hd.event_id = fe.event_id
      · simp [replaceRow, hhd, ih]
      · simp [replaceRow, hhd, ih]

theorem nodup_add (q : DLQ) (fe : FailedEvent) (h : NodupIds q) :
    NodupIds (add_failed_event q fe) := by
  unfold add_failed_event
  by_cases hany : q.any (fun ev => ev.event_id = fe.event_id) = true
  · rw [if_pos hany]
    unfold NodupIds
    rw [ids_replace]
    exact h
  · rw [if_neg hany]
    unfold NodupIds
    rw [List.map_append]
    rw [List.nodup_append]
    refine ⟨h, by simp, ?_⟩
    intro x hx hx'
    simp only [List.map_cons, List.map_nil, List.mem_cons,
      List.not_mem_nil, or_false] at hx'
    obtain ⟨e, he, heq⟩ := List.mem_map.mp hx
    rw [Bool.not_eq_true, List.any_eq_false] at hany
    exact absurd (by simp [heq, hx'] : decide (e.event_id = fe.event_id) = true)
      (by simpa using hany e he)

theorem findRow_of_mem_nodup (q : DLQ) (ev : FailedEvent)
    (hnd : NodupIds q) (hmem : ev ∈ q) :
    findRow q ev.event_id = some ev := by
  induction q with
  | nil => cases hmem
  | cons hd tl ih =>
      rcases List.mem_cons.mp hmem with heq | htl
      · subst heq
        simp [findRow]
      · have hnd' := hnd
        unfold NodupIds at hnd'
        rw [List.map_cons, List.nodup_cons] at hnd'
        have hne : ¬hd.event_id = ev.event_id := by
          intro hcon
          exact hnd'.1 (hcon ▸ List.mem_map_of_mem (·.event_id) htl)
        simp only [findRow, if_neg hne]
        exact ih hnd'.2 htl

theorem mem_getPending (q : DLQ) (now : DateTime) (lim : Nat)
    (r : FailedEvent) (h : r ∈ get_pending_events q now lim) :
    r ∈ q ∧ (r.status = "pending" ∨ r.status = "retrying") := by
  unfold get_pending_events at h
  have h1 := List.mem_of_mem_take h
  rw [List.mem_insertionSort, List.mem_filter] at h1
  obtain ⟨hq, hp⟩ := h1
  refine ⟨hq, ?_⟩
  unfold isPendingRow at hp
  simp only [Bool.or_eq_true, Bool.and_eq_true, beq_iff_eq] at hp
  rcases hp with hp | ⟨hp, _⟩
  · exact Or.inl hp
  · exact Or.inr hp

theorem nodup_getPending (q : DLQ) (now : DateTime) (lim : Nat)
    (h : NodupIds q) : NodupIds (get_pending_events q now lim) := by
  unfold get_pending_events NodupIds
  have h1 : ((q.filter (isPendingRow now)).map (fun e => e.event_id)).Nodup :=
    List.Nodup.sublist ((List.filter_sublist q).map (fun e => e.event_id)) h
  have hperm : List.Perm
      (((q.filter (isPendingRow now)).insertionSort
        (fun a b => a.last_failure ≤ b.last_failure)).map (fun e => e.event_id))
      ((q.filter (isPendingRow now)).map (fun e => e.event_id)) :=
    (List.perm_insertionSort _ _).map (fun e : FailedEvent => e.event_id)
  have h2 := hperm.nodup_iff.mpr h1
  exact List.Nodup.sublist
    ((List.take_sublist lim _).map (fun e : FailedEvent => e.event_id)) h2

theorem processOne_findRow_ne (cfg : RecoveryConfig) (step : RecoveryStep)
    (acc : DLQ × List String) (ev : FailedEvent) (id : String)
    (h : ev.event_id ≠ id) :
    findRow (processOne cfg step acc ev).1 id = findRow acc.1 id := by
  unfold processOne
  by_cases h1 : cfg.max_recovery_attempts ≤ ev.failure_count
  · rw [if_pos h1]
    exact findRow_update_ne _ _ _ _ _ h
  · rw [if_neg h1]
    dsimp only
    by_cases h2 : (step.send ev.event_id).success = true
    · rw [if_pos h2]
      rw [findRow_remove_ne _ _ _ h, findRow_update_ne _ _ _ _ _ h]
    · rw [if_neg h2]
      have h3 := findRow_add_ne
        (update_event_status acc.1 ev.event_id "retrying"
          (some (step.now + cfg.recovery_backoff_base * 2 ^ (ev.failure_count - 1))))
        { ev with
            failure_count := ev.failure_count + 1
            last_failure := step.now
            failure_reason := "Recovery attempt failed: " ++
              optStr (step.send ev.event_id).error }
        id h
      rw [h3, findRow_update_ne _ _ _ _ _ h]

theorem processOne_sends (cfg : RecoveryConfig) (step : RecoveryStep)
    (acc : DLQ × List String) (ev : FailedEvent) (x : String)
    (hx : x ∈ (processOne cfg step acc ev).2) :
    x ∈ acc.2 ∨ x = ev.event_id := by
  unfold processOne at hx
  by_cases h1 : cfg.max_recovery_attempts ≤ ev.failure_count
  · rw [if_pos h1] at hx
    exact Or.inl hx
  · rw [if_neg h1] at hx
    dsimp only at hx
    by_cases h2 : (step.send ev.event_id).success = true
    · rw [if_pos h2] at hx
      simpa using List.mem_append.mp hx
    · rw [if_neg h2] at hx
      simpa using List.mem_append.mp hx

theorem processOne_nodup (cfg : RecoveryConfig) (step : RecoveryStep)
    (acc : DLQ × List String) (ev : FailedEvent) (h : NodupIds acc.1) :
    NodupIds (processOne cfg step acc ev).1 := by
  unfold processOne
  by_cases h1 : cfg.max_recovery_attempts ≤ ev.failure_count
  · rw [if_pos h1]
    exact nodup_update _ _ _ _ h
  · rw [if_neg h1]
    dsimp only
    by_cases h2 : (step.send ev.event_id).success = true
    · rw [if_pos h2]
      exact nodup_remove _ _ (nodup_update _ _ _ _ h)
    · rw [if_neg h2]
      exact nodup_add _ _ (nodup_update _ _ _ _ h)

theorem processOne_terminal (cfg : RecoveryConfig) (step : RecoveryStep)
    (acc : DLQ × List String) (ev : FailedEvent)
    (h : cfg.max_recovery_attempts ≤ ev.failure_count) :
    processOne cfg step acc ev =
      (update_event_status acc.1 ev.event_id "failed" none, acc.2) := by
  unfold processOne
  rw [if_pos h]

theorem foldl_processOne_ne (cfg : RecoveryConfig) (step : RecoveryStep)
    (evs : List FailedEvent) : ∀ (acc : DLQ × List String) (id : String),
    (∀ e ∈ evs, e.event_id ≠ id) →
    findRow (evs.foldl (processOne cfg step) acc).1 id = findRow acc.1 id ∧
    (id ∉ acc.2 → id ∉ (evs.foldl (processOne cfg step) acc).2) ∧
    (NodupIds acc.1 → NodupIds (evs.foldl (processOne cfg step) acc).1) := by
  induction evs with
  | nil => intro acc id _; exact ⟨rfl, fun h => h, fun h => h⟩
  | cons e rest ih =>
      intro acc id hne
      have hefst : e.event_id ≠ id := hne e (List.mem_cons_self e rest)
      have hrest : ∀ x ∈ rest, x.event_id ≠ id :=
        fun x hx => hne x (List.mem_cons_of_mem e hx)
      rw [List.foldl_cons]
      obtain ⟨ha, hb, hc⟩ := ih (processOne cfg step acc e) id hrest
      refine ⟨?_, ?_, ?_⟩
      · rw [ha, processOne_findRow_ne cfg step acc e id hefst]
      · intro hnot
        apply hb
        intro hmem
        rcases processOne_sends cfg step acc e id hmem with hin | heq
        · exact hnot hin
        · exact hefst heq.symm
      · intro hnd
        exact hc (processOne_nodup cfg step acc e hnd)

theorem getPending_excludes_failed (q : DLQ) (id : String) (r : FailedEvent)
    (now : DateTime) (lim : Nat) (hnd : NodupIds q)
    (hfind : findRow q id = some r) (hst : r.status = "failed") :
    ∀ e ∈ get_pending_events q now lim, e.event_id ≠ id := by
  intro e he heq
  obtain ⟨hq, hstat⟩ := mem_getPending q now lim e he
  have hfr := findRow_of_mem_nodup q e hnd hq
  rw [heq, hfind] at hfr
  have hre : r = e := by injection hfr
  rcases hstat with hp | hp <;> rw [← hre, hst] at hp <;> simp at hp

theorem process_jobs_preserves_failed (cfg : RecoveryConfig) (q : DLQ)
    (step : RecoveryStep) (id : String) (r : FailedEvent)
    (hnd : NodupIds q) (hfind : findRow q id = some r)
    (hst : r.status = "failed") :
    findRow (process_recovery_jobs cfg q step).1 id = some r ∧
    id ∉ (process_recovery_jobs cfg q step).2 ∧
    NodupIds (process_recovery_jobs cfg q step).1 := by
  unfold process_recovery_jobs
  have hne := getPending_excludes_failed q id r step.now 10 hnd hfind hst
  obtain ⟨ha, hb, hc⟩ :=
    foldl_processOne_ne cfg step (get_pending_events q step.now 10) (q, []) id hne
  exact ⟨ha.trans hfind, hb (by simp), hc hnd⟩

theorem runRecovery_preserves_failed (cfg : RecoveryConfig)
    (steps : List RecoveryStep) : ∀ (q : DLQ) (id : String) (r : FailedEvent),
    NodupIds q → findRow q id = some r → r.status = "failed" →
    findRow (runRecovery cfg q steps).1 id = some r ∧
    id ∉ (runRecovery cfg q steps).2 ∧
    NodupIds (runRecovery cfg q steps).1 := by
  induction steps with
  | nil =>
      intro q id r hnd hfind hst
      exact ⟨hfind, by simp [runRecovery], by simpa [runRecovery] using hnd⟩
  | cons st rest ih =>
      intro q id r hnd hfind hst
      have h1 := process_jobs_preserves_failed cfg q st id r hnd hfind hst
      have h2 := ih (process_recovery_jobs cfg q st).1 id r h1.2.2 h1.1 hst
      unfold runRecovery
      refine ⟨h2.1, ?_, h2.2.2⟩
      intro hmem
      rcases List.mem_append.mp hmem with hin | hin
      · exact h1.2.1 hin
      · exact h2.2.1 hin

/-- C8: when the recovery processor pulls a DLQ row whose `failure_count`
has reached `max_recovery_attempts`, it marks the row `failed` without
attempting any resend; from then on — through the rest of that tick and
any number of later recovery ticks — the row keeps status `failed`, is
never returned by `get_pending_events`, and is never resent. -/
theorem C8_dlq_terminal_state (cfg : RecoveryConfig) (q : DLQ)
    (step : RecoveryStep) (ev : FailedEvent) (steps : List RecoveryStep)
    (hnd : NodupIds q)
    (hmem : ev ∈ get_pending_events q step.now 10)
    (hmax : cfg.max_recovery_attempts ≤ ev.failure_count) :
    (findRow (process_recovery_jobs cfg q step).1 ev.event_id).map
        (fun r => r.status) = some "failed" ∧
    ev.event_id ∉ (process_recovery_jobs cfg q step).2 ∧
    (findRow (runRecovery cfg (process_recovery_jobs cfg q step).1 steps).1
        ev.event_id).map (fun r => r.status) = some "failed" ∧
    ev.event_id ∉
      (runRecovery cfg (process_recovery_jobs cfg q step).1 steps).2 ∧
    (∀ (now2 : DateTime) (lim : Nat) (e : FailedEvent),
      e ∈ get_pending_events
        (runRecovery cfg (process_recovery_jobs cfg q step).1 steps).1
        now2 lim →
      e.event_id ≠ ev.event_id) := by
  obtain ⟨l1, l2, hsplit⟩ := List.append_of_mem hmem
  have hpnd := nodup_getPending q step.now 10 hnd
  rw [hsplit] at hpnd
  unfold NodupIds at hpnd
  rw [List.map_append, List.map_cons, List.nodup_append] at hpnd
  have hl1 : ∀ e ∈ l1, e.event_id ≠ ev.event_id := by
    intro e he heq
    exact hpnd.2.2 (List.mem_map_of_mem _ he)
      (by rw [heq]; exact List.mem_cons_self _ _)
  have hl2 : ∀ e ∈ l2, e.event_id ≠ ev.event_id := by
    intro e he heq
    have h2 := hpnd.2.1
    rw [List.nodup_cons] at h2
    exact h2.1 (heq ▸ List.mem_map_of_mem _ he)
  have hq_ev : ev ∈ q := (mem_getPending q step.now 10 ev hmem).1
  have hfind0 : findRow q ev.event_id = some ev :=
    findRow_of_mem_nodup q ev hnd hq_ev
  have hjobs : process_recovery_jobs cfg q step =
      l2.foldl (processOne cfg step)
        (processOne cfg step (l1.foldl (processOne cfg step) (q, [])) ev) := by
    unfold process_recovery_jobs
    rw [hsplit, List.foldl_append, List.foldl_cons]
  obtain ⟨ha1, hb1, hc1⟩ :=
    foldl_processOne_ne cfg step l1 (q, []) ev.event_id hl1
  have hterm := processOne_terminal cfg step
    (l1.foldl (processOne cfg step) (q, [])) ev hmax
  obtain ⟨ha2, hb2, hc2⟩ := foldl_processOne_ne cfg step l2
    (processOne cfg step (l1.foldl (processOne cfg step) (q, [])) ev)
    ev.event_id hl2
  have hupd : findRow (update_event_status
      (l1.foldl (processOne cfg step) (q, [])).1 ev.event_id "failed" none)
      ev.event_id =
      some { ev with status := "failed", retry_after := none } := by
    rw [findRow_update_self, ha1, hfind0]
    rfl
  have hfind1 : findRow (process_recovery_jobs cfg q step).1 ev.event_id =
      some { ev with status := "failed", retry_after := none } := by
    rw [hjobs, ha2, hterm]
    exact hupd
  have hnodup1 : NodupIds (process_recovery_jobs cfg q step).1 := by
    rw [hjobs]
    apply hc2
    rw [hterm]
    exact nodup_update _ _ _ _ (hc1 hnd)
  have hsends1 : ev.event_id ∉ (process_recovery_jobs cfg q step).2 := by
    rw [hjobs]
    apply hb2
    rw [hterm]
    exact hb1 (by simp)
  obtain ⟨hr1, hr2, hr3⟩ := runRecovery_preserves_failed cfg steps
    (process_recovery_jobs cfg q step).1 ev.event_id
    { ev with status := "failed", retry_after := none } hnodup1 hfind1 rfl
  refine ⟨by rw [hfind1]; rfl, hsends1, by rw [hr1]; rfl, hr2, ?_⟩
  intro now2 lim e he
  exact getPending_excludes_failed _ ev.event_id _ now2 lim hr3 hr1 rfl e he

/-- Concrete DLQ row at the recovery-attempt cap, used to witness C8. -/
def dlqRowSample : FailedEvent where
  event_id := "e1"
  original_payload := .pdict []
  target_agent := "triage"
  target_url := "http://localhost:8004"
  failure_reason := "boom"
  failure_count := 5
  first_failure := 0
  last_failure := 0
  status := "pending"

/-- Concrete recovery tick used to witness C8. -/
def recoveryStepSample : RecoveryStep where
  now := 100
  send := fun _ => { success := true, status_code := 200 }

/-- Witness for C8: a single pending row with `failure_count = 5` under the
default `max_recovery_attempts = 5`, one tick, then one more tick. -/
theorem C8_dlq_terminal_state_witness :
    (findRow (process_recovery_jobs {} [dlqRowSample] recoveryStepSample).1
        dlqRowSample.event_id).map (fun r => r.status) = some "failed" ∧
    dlqRowSample.event_id ∉
      (process_recovery_jobs {} [dlqRowSample] recoveryStepSample).2 ∧
    (findRow (runRecovery {}
        (process_recovery_jobs {} [dlqRowSample] recoveryStepSample).1
        [recoveryStepSample]).1 dlqRowSample.event_id).map
      (fun r => r.status) = some "failed" ∧
    dlqRowSample.event_id ∉
      (runRecovery {}
        (process_recovery_jobs {} [dlqRowSample] recoveryStepSample).1
        [recoveryStepSample]).2 ∧
    (∀ (now2 : DateTime) (lim : Nat) (e : FailedEvent),
      e ∈ get_pending_events
        (runRecovery {}
          (process_recovery_jobs {} [dlqRowSample] recoveryStepSample).1
          [recoveryStepSample]).1 now2 lim →
      e.event_id ≠ dlqRowSample.event_id) :=
  C8_dlq_terminal_state {} [dlqRowSample] recoveryStepSample dlqRowSample
    [recoveryStepSample] (by unfold NodupIds; decide)
    (List.mem_singleton_self dlqRowSample) (by decide)

/-! ## `session_archival.py`: `SessionArchiver` and `SessionManager`

The archiver's `archived_sessions` table is keyed by the `session_id`
primary key; the manager's `active_sessions` dict maps session ids to
session-data dicts. -/

/-- `ArchivedSession` dataclass / `archived_sessions` row. -/
structure ArchivedRow where
  session_id : String
  session_data : List (String × PyVal)
  archived_at : DateTime
  restored_at : Option DateTime := none
  restore_count : Nat := 0
  metadata : PyVal := .pdict []
  tags : List String := []

/-- `del d[k]` on a dict. -/
def removeKey {α : Type} : List (String × α) → String → List (String × α)
  | [], _ => []
  | (k', v) :: rest, k =>
      if k' = k then removeKey rest k else (k', v) :: removeKey rest k

/-- `SessionArchiver._extract_tags`.  Metadata is a dict in every session
this system builds; a non-dict value would raise in Python and is out of
scope. -/
def extract_tags (sd : List (String × PyVal)) : List String :=
  (match assocGet sd "metadata" with
   | some (.pdict md) =>
       (match assocGet md "source_agent" with
        | some v => ["source:" ++ pyStr v]
        | none => []) ++
       (match assocGet md "severity" with
        | some v => ["severity:" ++ pyStr v]
        | none => [])
   | _ => []) ++
  (match assocGet sd "status" with
   | some v => ["status:" ++ pyStr v]
   | none => []) ++
  (if assocHas sd "incident_id" then ["incident:yes"] else [])

/-- Row lookup in `archived_sessions` by primary key. -/
def findArchive : List ArchivedRow → String → Option ArchivedRow
  | [], _ => none
  | r :: rest, sid =>
      if r.session_id = sid then some r else findArchive rest sid

/-- The `REPLACE` half of the archiver's `INSERT OR REPLACE`. -/
def replaceArchiveRow : List ArchivedRow → ArchivedRow → List ArchivedRow
  | [], _ => []
  | r :: rest, row =>
      (if r.session_id = row.session_id then row else r) ::
        replaceArchiveRow rest row

/-- `INSERT OR REPLACE INTO archived_sessions`. -/
def upsertArchive (ar : List ArchivedRow) (row : ArchivedRow) :
    List ArchivedRow :=
  if ar.any (fun r => r.session_id = row.session_id) then
    replaceArchiveRow ar row
  else ar ++ [row]

/-- The archiver's `UPDATE archived_sessions SET restored_at, restore_count
WHERE session_id = ?`. -/
def updateArchiveRestore : List ArchivedRow → String → DateTime → Nat →
    List ArchivedRow
  | [], _, _, _ => []
  | r :: rest, sid, now, c =>
      (if r.session_id = sid then
        { r with restored_at := some now, restore_count := c }
       else r) :: updateArchiveRestore rest sid now c

/-- `SessionArchiver.archive_session`: takes the session id from the data
(falling back to a fresh uuid when absent or falsy) and upserts a snapshot
row with `restored_at = NULL`, `restore_count = 0`.  Session ids are
strings in this system (`pyStr` renders the stored value). -/
def SessionArchiver.archive_session (ar : List ArchivedRow)
    (sd : List (String × PyVal)) (md : PyVal) (now : DateTime)
    (freshId : String) : List ArchivedRow × String :=
  let idsd : String × List (String × PyVal) :=
    match assocGet sd "session_id" with
    | some v =>
        if pyTruthy v then (pyStr v, sd)
        else (freshId, assocSet sd "session_id" (.pstr freshId))
    | none => (freshId, assocSet sd "session_id" (.pstr freshId))
  let row : ArchivedRow :=
    { session_id := idsd.1
      session_data := idsd.2
      archived_at := now
      restored_at := none
      restore_count := 0
      metadata := md
      tags := extract_tags idsd.2 }
  (upsertArchive ar row, idsd.1)

/-- `SessionArchiver.restore_session`: `None` when the id is absent;
otherwise bumps `restore_count`, stamps `restored_at`, and returns the
snapshot data with restore metadata added. -/
def SessionArchiver.restore_session (ar : List ArchivedRow) (sid : String)
    (now : DateTime) : Option (List (String × PyVal)) × List ArchivedRow :=
  match findArchive ar sid with
  | none => (none, ar)
  | some row =>
      let newCount := row.restore_count + 1
      let ar2 := updateArchiveRestore ar sid now newCount
      let sd := assocSet (assocSet (assocSet row.session_data
        "restored" (.pbool true)) "restore_count" (.pint newCount))
        "last_restored_at" (.pstr (dtIso now))
      (some sd, ar2)

/-- The session-manager state: the in-memory active set and the durable
archive store (statistics counters omitted). -/
structure SMState where
  active_sessions : List (String × List (String × PyVal)) := []
  archive : List ArchivedRow := []

/-- `SessionManager.create_session`.  `session_data.get("session_id",
uuid4())` defaults only when the key is absent; ids are strings in this
system. -/
def SessionManager.create_session (st : SMState)
    (sd : List (String × PyVal)) (freshId : String) (now : DateTime) :
    SMState × String :=
  let sid := match assocGet sd "session_id" with
    | some (.pstr s) => s
    | some _ => freshId
    | none => freshId
  let sd1 := assocSet sd "session_id" (.pstr sid)
  let sd2 := assocSet sd1 "created_at" (.pstr (dtIso now))
  let sd3 := assocSet sd2 "last_activity" (.pstr (dtIso now))
  let sd4 := assocSet sd3 "status" (.pstr "active")
  ({ st with active_sessions := assocSet st.active_sessions sid sd4 }, sid)

/-- `SessionManager.archive_session`: stamps the data, archives it via the
archiver, and removes the id from the active set; `False` when the id is
not active. -/
def SessionManager.archive_session (st : SMState) (sid reason : String)
    (now : DateTime) (freshId : String) : SMState × Bool :=
  match assocGet st.active_sessions sid with
  | none => (st, false)
  | some sd =>
      let sd1 := assocSet sd "archived_at" (.pstr (dtIso now))
      let sd2 := assocSet sd1 "archive_reason" (.pstr reason)
      let sd3 := assocSet sd2 "status" (.pstr "archived")
      let res := SessionArchiver.archive_session st.archive sd3 (.pdict [])
        now freshId
      ({ active_sessions := removeKey st.active_sessions sid,
         archive := res.1 }, true)

/-- `SessionManager.restore_session`: restores via the archiver and
re-inserts into the active set with `status = "restored"`.  The archive
row is not removed. -/
def SessionManager.restore_session (st : SMState) (sid : String)
    (now : DateTime) : SMState × Option (List (String × PyVal)) :=
  match SessionArchiver.restore_session st.archive sid now with
  | (none, _) => (st, none)
  | (some sd, ar2) =>
      let sd1 := assocSet sd "status" (.pstr "restored")
      let sd2 := assocSet sd1 "restored_at" (.pstr (dtIso now))
      ({ active_sessions := assocSet st.active_sessions sid sd2,
         archive := ar2 }, some sd2)

/-- The session-lifecycle operations the exclusivity claim ranges over. -/
inductive SMOp where
  | create (sd : List (String × PyVal)) (freshId : String) (now : DateTime)
  | archive (sid reason : String) (now : DateTime) (freshId : String)
  | restore (sid : String) (now : DateTime)

def SMState.apply (st : SMState) : SMOp → SMState
  | .create sd freshId now =>
      (SessionManager.create_session st sd freshId now).1
  | .archive sid reason now freshId =>
      (SessionManager.archive_session st sid reason now freshId).1
  | .restore sid now => (SessionManager.restore_session st sid now).1

/-- The id is in the active working set. -/
def inActive (st : SMState) (sid : String) : Bool :=
  assocHas st.active_sessions sid

/-- The id is in the archived durable store. -/
def inArchive (st : SMState) (sid : String) : Bool :=
  st.archive.any (fun r => r.session_id = sid)

/-- The trace create - archive - restore of one session id. -/
def c1State : SMState :=
  SMState.apply (SMState.apply (SMState.apply {} (.create [] "s1" 0))
    (.archive "s1" "manual" 1 "u2")) (.restore "s1" 2)

/-- C1 counterexample: after `create`, `archiveSession`, `restoreSession`
of the same id, the id is present in the active working set AND still
present in the archived durable store (`restoreSession` re-inserts into
the active set without deleting the archive row), so it is not in exactly
one of the two. -/
theorem C1_exclusivity_counterexample :
    inActive c1State "s1" = true ∧ inArchive c1State "s1" = true ∧
    ((inActive c1State "s1").xor (inArchive c1State "s1")) = false := by
  refine ⟨?_, ?_, ?_⟩ <;> decide

theorem mem_assocSet {α : Type} (m : List (String × α)) (k : String)
    (v : α) (p : String × α) (hp : p ∈ assocSet m k v) :
    p = (k, v) ∨ p ∈ m := by
  induction m with
  | nil => simpa [assocSet] using hp
  | cons hd tl ih =>
      obtain ⟨k', v'⟩ := hd
      by_cases h : k' = k
      · rw [assocSet, if_pos h] at hp
        rcases List.mem_cons.mp hp with h1 | h1
        · exact Or.inl h1
        · exact Or.inr (List.mem_cons_of_mem _ h1)
      · rw [assocSet, if_neg h] at hp
        rcases List.mem_cons.mp hp with h1 | h1
        · exact Or.inr (h1 ▸ List.mem_cons_self _ _)
        · rcases ih h1 with h2 | h2
          · exact Or.inl h2
          · exact Or.inr (List.mem_cons_of_mem _ h2)

theorem assocHas_set_self {α : Type} (m : List (String × α)) (k : String)
    (v : α) : assocHas (assocSet m k v) k = true := by
  induction m with
  | nil => simp [assocSet, assocHas]
  | cons hd tl ih =>
      obtain ⟨k', v'⟩ := hd
      by_cases h : k' = k
      · simp [assocSet, assocHas, h]
      · simp only [assocSet, if_neg h]
        simp [assocHas, h] at ih ⊢
        exact ih

theorem assocHas_set_mono {α : Type} (m : List (String × α)) (k k' : String)
    (v : α) (h : assocHas m k' = true) :
    assocHas (assocSet m k v) k' = true := by
  induction m with
  | nil => simp [assocHas] at h
  | cons hd tl ih =>
      obtain ⟨k1, v1⟩ := hd
      by_cases h1 : k1 = k
      · simp only [assocSet, if_pos h1]
        simp [assocHas] at h ⊢
        rcases h with h2 | h2
        · exact Or.inl (h1 ▸ h2)
        · exact Or.inr h2
      · simp only [assocSet, if_neg h1]
        simp [assocHas] at h ⊢
        rcases h with h2 | h2
        · exact Or.inl h2
        · exact Or.inr (by simpa [assocHas] using ih (by simpa [assocHas] using h2))

theorem assocHas_removeKey_ne {α : Type} (m : List (String × α))
    (k k' : String) (h : k ≠ k') :
    assocHas (removeKey m k) k' = assocHas m k' := by
  induction m with
  | nil => rfl
  | cons hd tl ih =>
      obtain ⟨k1, v1⟩ := hd
      by_cases h1 : k1 = k
      · have h2 : ¬k1 = k' := by rw [h1]; exact h
        simp only [removeKey, if_pos h1]
        simp [assocHas, h2] at ih ⊢
        simpa [assocHas] using ih
      · simp only [removeKey, if_neg h1]
        simp [assocHas] at ih ⊢
        rw [ih]

theorem mem_removeKey {α : Type} (m : List (String × α)) (k : String)
    (p : String × α) (hp : p ∈ removeKey m k) : p ∈ m := by
  induction m with
  | nil => simp [removeKey] at hp
  | cons hd tl ih =>
      obtain ⟨k1, v1⟩ := hd
      by_cases h1 : k1 = k
      · rw [removeKey, if_pos h1] at hp
        exact List.mem_cons_of_mem _ (ih hp)
      · rw [removeKey, if_neg h1] at hp
        rcases List.mem_cons.mp hp with h2 | h2
        · exact h2 ▸ List.mem_cons_self _ _
        · exact List.mem_cons_of_mem _ (ih h2)

theorem mem_replaceArchive (ar : List ArchivedRow) (row r : ArchivedRow)
    (h : r ∈ replaceArchiveRow ar row) : r = row ∨ r ∈ ar := by
  induction ar with
  | nil => simp [replaceArchiveRow] at h
  | cons hd tl ih =>
      rw [replaceArchiveRow] at h
      rcases List.mem_cons.mp h with h1 | h1
      · by_cases h2 : hd.session_id = row.session_id
        · rw [if_pos h2] at h1
          exact Or.inl h1
        · rw [if_neg h2] at h1
          exact Or.inr (h1 ▸ List.mem_cons_self _ _)
      · rcases ih h1 with h2 | h2
        · exact Or.inl h2
        · exact Or.inr (List.mem_cons_of_mem _ h2)

theorem mem_upsertArchive (ar : List ArchivedRow) (row r : ArchivedRow)
    (h : r ∈ upsertArchive ar row) : r = row ∨ r ∈ ar := by
  unfold upsertArchive at h
  by_cases hany : ar.any (fun x => x.session_id = row.session_id) = true
  · rw [if_pos hany] at h
    exact mem_replaceArchive ar row r h
  · rw [if_neg hany] at h
    rcases List.mem_append.mp h with h1 | h1
    · exact Or.inr h1
    · exact Or.inl (by simpa using h1)

theorem mem_updateArchiveRestore (ar : List ArchivedRow) (sid : String)
    (now : DateTime) (c : Nat) (r : ArchivedRow)
    (h : r ∈ updateArchiveRestore ar sid now c) :
    ∃ r0 ∈ ar, r.session_id = r0.session_id ∧
      r.session_data = r0.session_data := by
  induction ar with
  | nil => simp [updateArchiveRestore] at h
  | cons hd tl ih =>
      rw [updateArchiveRestore] at h
      rcases List.mem_cons.mp h with h1 | h1
      · by_cases h2 : hd.session_id = sid
        · rw [if_pos h2] at h1
          exact ⟨hd, List.mem_cons_self _ _, by rw [h1], by rw [h1]⟩
        · rw [if_neg h2] at h1
          exact ⟨hd, List.mem_cons_self _ _, by rw [h1], by rw [h1]⟩
      · obtain ⟨r0, hr0, he⟩ := ih h1
        exact ⟨r0, List.mem_cons_of_mem _ hr0, he⟩

theorem any_replaceArchive (ar : List ArchivedRow) (row : ArchivedRow)
    (s : String) :
    (replaceArchiveRow ar row).any (fun r => r.session_id = s) =
      ar.any (fun r => r.session_id = s) := by
  induction ar with
  | nil => rfl
  | cons hd tl ih =>
      rw [replaceArchiveRow]
      by_cases h2 : hd.session_id = row.session_id
      · rw [if_pos h2]
        simp [List.any_cons, ih, h2]
      · rw [if_neg h2]
        simp [List.any_cons, ih]

theorem any_updateRestore (ar : List ArchivedRow) (sid : String)
    (now : DateTime) (c : Nat) (s : String) :
    (updateArchiveRestore ar sid now c).any (fun r => r.session_id = s) =
      ar.any (fun r => r.session_id = s) := by
  induction ar with
  | nil => rfl
  | cons hd tl ih =>
      rw [updateArchiveRestore]
      by_cases h2 : hd.session_id = sid
      · rw [if_pos h2]
        simp [List.any_cons, ih]
      · rw [if_neg h2]
        simp [List.any_cons, ih]

theorem any_upsert_mono (ar : List ArchivedRow) (row : ArchivedRow)
    (s : String) (h : ar.any (fun r => r.session_id = s) = true) :
    (upsertArchive ar row).any (fun r => r.session_id = s) = true := by
  unfold upsertArchive
  by_cases hany : ar.any (fun x => x.session_id = row.session_id) = true
  · rw [if_pos hany, any_replaceArchive]
    exact h
  · rw [if_neg hany, List.any_append, h]
    rfl

theorem any_upsert_self (ar : List ArchivedRow) (row : ArchivedRow) :
    (upsertArchive ar row).any
      (fun r => r.session_id = row.session_id) = true := by
  unfold upsertArchive
  by_cases hany : ar.any (fun x => x.session_id = row.session_id) = true
  · rw [if_pos hany, any_replaceArchive]
    exact hany
  · rw [if_neg hany, List.any_append]
    simp

theorem findArchive_some (ar : List ArchivedRow) (sid : String)
    (row : ArchivedRow) (h : findArchive ar sid = some row) :
    row.session_id = sid ∧ row ∈ ar := by
  induction ar with
  | nil => simp [findArchive] at h
  | cons hd tl ih =>
      rw [findArchive] at h
      by_cases h2 : hd.session_id = sid
      · rw [if_pos h2] at h
        injection h with h3
        exact ⟨h3 ▸ h2, h3 ▸ List.mem_cons_self _ _⟩
      · rw [if_neg h2] at h
        obtain ⟨h3, h4⟩ := ih h
        exact ⟨h3, List.mem_cons_of_mem _ h4⟩

theorem any_iff_findArchive (ar : List ArchivedRow) (sid : String) :
    ar.any (fun r => r.session_id = sid) = true ↔
      (findArchive ar sid).isSome = true := by
  induction ar with
  | nil => simp [findArchive]
  | cons hd tl ih =>
      rw [findArchive]
      by_cases h2 : hd.session_id = sid
      · simp [List.any_cons, h2]
      · simp [List.any_cons, h2, ih]

theorem assocGet_mem {α : Type} (m : List (String × α)) (k : String)
    (v : α) (h : assocGet m k = some v) : (k, v) ∈ m := by
  induction m with
  | nil => simp [assocGet] at h
  | cons hd tl ih =>
      obtain ⟨k1, v1⟩ := hd
      by_cases h1 : k1 = k
      · rw [assocGet, if_pos h1] at h
        injection h with h2
        subst h1 h2
        exact List.mem_cons_self _ _
      · rw [assocGet, if_neg h1] at h
        exact List.mem_cons_of_mem _ (ih h)

theorem findArchive_updateRestore_self (ar : List ArchivedRow)
    (sid : String) (now : DateTime) (c : Nat) :
    findArchive (updateArchiveRestore ar sid now c) sid =
      (findArchive ar sid).map
        (fun r => { r with restored_at := some now, restore_count := c }) := by
  induction ar with
  | nil => rfl
  | cons hd tl ih =>
      rw [updateArchiveRestore, findArchive]
      by_cases h2 : hd.session_id = sid
      · simp [findArchive, h2]
      · simp only [if_neg h2]
        rw [findArchive, if_neg h2, ih]

/-- Coherence of the session stores, maintained by every operation: each
active entry's data carries its own (truthy) key as `session_id`, and each
archive row's snapshot carries the row's (truthy) id. -/
def WF (st : SMState) : Prop :=
  (∀ p ∈ st.active_sessions,
    assocGet p.2 "session_id" = some (.pstr p.1) ∧
      pyTruthy (.pstr p.1) = true) ∧
  (∀ r ∈ st.archive,
    assocGet r.session_data "session_id" = some (.pstr r.session_id) ∧
      pyTruthy (.pstr r.session_id) = true)

/-- Operation sanity: freshly generated uuids are non-empty, and a
caller-provided session id is a non-empty string. -/
def SMOp.ok : SMOp → Prop
  | .create sd freshId _ =>
      pyTruthy (.pstr freshId) = true ∧
      (match assocGet sd "session_id" with
       | some (.pstr s) => pyTruthy (.pstr s) = true
       | some _ => False
       | none => True)
  | .archive _ _ _ _ => True
  | .restore _ _ => True

theorem assocGet_sid_create (sd : List (String × PyVal)) (x a b c : PyVal) :
    assocGet (assocSet (assocSet (assocSet (assocSet sd "session_id" x)
      "created_at" a) "last_activity" b) "status" c) "session_id" = some x := by
  rw [assocGet_set_ne _ "status" "session_id" _ (by decide),
    assocGet_set_ne _ "last_activity" "session_id" _ (by decide),
    assocGet_set_ne _ "created_at" "session_id" _ (by decide),
    assocGet_set_self]

theorem assocGet_sid_stamp (sd : List (String × PyVal)) (a b c : PyVal) :
    assocGet (assocSet (assocSet (assocSet sd "archived_at" a)
      "archive_reason" b) "status" c) "session_id" =
      assocGet sd "session_id" := by
  rw [assocGet_set_ne _ "status" "session_id" _ (by decide),
    assocGet_set_ne _ "archive_reason" "session_id" _ (by decide),
    assocGet_set_ne _ "archived_at" "session_id" _ (by decide)]

theorem assocGet_sid_restore (rd : List (String × PyVal))
    (a b c d e : PyVal) :
    assocGet (assocSet (assocSet (assocSet (assocSet (assocSet rd
      "restored" a) "restore_count" b) "last_restored_at" c) "status" d)
      "restored_at" e) "session_id" = assocGet rd "session_id" := by
  rw [assocGet_set_ne _ "restored_at" "session_id" _ (by decide),
    assocGet_set_ne _ "status" "session_id" _ (by decide),
    assocGet_set_ne _ "last_restored_at" "session_id" _ (by decide),
    assocGet_set_ne _ "restore_count" "session_id" _ (by decide),
    assocGet_set_ne _ "restored" "session_id" _ (by decide)]

theorem create_WF (st : SMState) (sd : List (String × PyVal))
    (freshId : String) (now : DateTime) (hWF : WF st)
    (hok : (SMOp.create sd freshId now).ok) :
    WF (st.apply (.create sd freshId now)) := by
  obtain ⟨hA, hR⟩ := hWF
  obtain ⟨hf, hs⟩ := hok
  unfold SMState.apply SessionManager.create_session
  dsimp only
  cases hsid : assocGet sd "session_id" with
  | none =>
      rw [hsid] at hs
      constructor
      · intro p hp
        rcases mem_assocSet _ _ _ p hp with heq | hold
        · subst heq
          exact ⟨assocGet_sid_create sd _ _ _ _, hf⟩
        · exact hA p hold
      · exact hR
  | some v =>
      rw [hsid] at hs
      cases v with
      | pstr s =>
          constructor
          · intro p hp
            rcases mem_assocSet _ _ _ p hp with heq | hold
            · subst heq
              exact ⟨assocGet_sid_create sd _ _ _ _, hs⟩
            · exact hA p hold
          · exact hR
      | pint n => exact absurd hs not_false
      | pbool b => exact absurd hs not_false
      | pnone => exact absurd hs not_false
      | pdict kvs => exact absurd hs not_false

theorem archive_WF (st : SMState) (sid2 reason : String) (now : DateTime)
    (fid : String) (hWF : WF st) :
    WF (st.apply (.archive sid2 reason now fid)) := by
  unfold SMState.apply SessionManager.archive_session
  dsimp only
  cases hlook : assocGet st.active_sessions sid2 with
  | none => exact hWF
  | some sd =>
      have hmem := assocGet_mem _ _ _ hlook
      obtain ⟨hget, htr⟩ := hWF.1 (sid2, sd) hmem
      have hget3 : assocGet (assocSet (assocSet (assocSet sd
          "archived_at" (.pstr (dtIso now))) "archive_reason" (.pstr reason))
          "status" (.pstr "archived")) "session_id" = some (.pstr sid2) := by
        rw [assocGet_sid_stamp]
        exact hget
      dsimp only
      unfold SessionArchiver.archive_session
      dsimp only
      rw [hget3]
      dsimp only
      rw [if_pos htr]
      dsimp only
      constructor
      · intro p hp
        exact hWF.1 p (mem_removeKey _ _ p hp)
      · intro r hr
        rcases mem_upsertArchive _ _ r hr with heq | hold
        · subst heq
          exact ⟨hget3, htr⟩
        · exact hWF.2 r hold

theorem restore_WF (st : SMState) (sid2 : String) (now : DateTime)
    (hWF : WF st) : WF (st.apply (.restore sid2 now)) := by
  unfold SMState.apply SessionManager.restore_session
    SessionArchiver.restore_session
  dsimp only
  cases hfa : findArchive st.archive sid2 with
  | none => exact hWF
  | some row =>
      obtain ⟨hrid, hrmem⟩ := findArchive_some _ _ _ hfa
      obtain ⟨hget, htr⟩ := hWF.2 row hrmem
      dsimp only
      constructor
      · intro p hp
        rcases mem_assocSet _ _ _ p hp with heq | hold
        · subst heq
          refine ⟨?_, ?_⟩
          · rw [assocGet_sid_restore, hget, hrid]
          · rw [← hrid]
            exact htr
        · exact hWF.1 p hold
      · intro r hr
        obtain ⟨r0, hr0, hid, hdata⟩ := mem_updateArchiveRestore _ _ _ _ r hr
        obtain ⟨hg0, ht0⟩ := hWF.2 r0 hr0
        exact ⟨by rw [hdata, hid]; exact hg0, by rw [hid]; exact ht0⟩

theorem create_presence (st : SMState) (sd : List (String × PyVal))
    (freshId : String) (now : DateTime) (sid : String)
    (h : (inActive st sid || inArchive st sid) = true) :
    (inActive (st.apply (.create sd freshId now)) sid ||
      inArchive (st.apply (.create sd freshId now)) sid) = true := by
  unfold SMState.apply SessionManager.create_session
  dsimp only
  simp only [Bool.or_eq_true] at h ⊢
  rcases h with ha | hb
  · left
    unfold inActive at ha ⊢
    exact assocHas_set_mono st.active_sessions _ sid _ ha
  · right
    exact hb

theorem archive_presence (st : SMState) (sid2 reason : String)
    (now : DateTime) (fid : String) (sid : String) (hWF : WF st)
    (h : (inActive st sid || inArchive st sid) = true) :
    (inActive (st.apply (.archive sid2 reason now fid)) sid ||
      inArchive (st.apply (.archive sid2 reason now fid)) sid) = true := by
  unfold SMState.apply SessionManager.archive_session
  dsimp only
  cases hlook : assocGet st.active_sessions sid2 with
  | none => exact h
  | some sd =>
      have hmem := assocGet_mem _ _ _ hlook
      obtain ⟨hget, htr⟩ := hWF.1 (sid2, sd) hmem
      have hget3 : assocGet (assocSet (assocSet (assocSet sd
          "archived_at" (.pstr (dtIso now))) "archive_reason" (.pstr reason))
          "status" (.pstr "archived")) "session_id" = some (.pstr sid2) := by
        rw [assocGet_sid_stamp]
        exact hget
      dsimp only
      unfold SessionArchiver.archive_session
      dsimp only
      rw [hget3]
      dsimp only
      rw [if_pos htr]
      dsimp only
      simp only [Bool.or_eq_true] at h ⊢
      rcases h with ha | hb
      · by_cases heq : sid2 = sid
        · right
          subst heq
          unfold inArchive
          dsimp only
          exact any_upsert_self st.archive _
        · left
          unfold inActive at ha ⊢
          dsimp only
          rw [assocHas_removeKey_ne st.active_sessions sid2 sid heq]
          exact ha
      · right
        unfold inArchive at hb ⊢
        dsimp only
        exact any_upsert_mono st.archive _ sid hb

theorem restore_presence (st : SMState) (sid2 : String) (now : DateTime)
    (sid : String) (h : (inActive st sid || inArchive st sid) = true) :
    (inActive (st.apply (.restore sid2 now)) sid ||
      inArchive (st.apply (.restore sid2 now)) sid) = true := by
  unfold SMState.apply SessionManager.restore_session
    SessionArchiver.restore_session
  dsimp only
  cases hfa : findArchive st.archive sid2 with
  | none => exact h
  | some row =>
      dsimp only
      simp only [Bool.or_eq_true] at h ⊢
      rcases h with ha | hb
      · left
        unfold inActive at ha ⊢
        dsimp only
        exact assocHas_set_mono st.active_sessions _ sid _ ha
      · right
        unfold inArchive at hb ⊢
        dsimp only
        rw [any_updateRestore]
        exact hb

/-- C1 (amended): once created, a session id is present in AT LEAST one of
the active working set and the archived durable store at every observation
point under create/archive/restore — never neither — but not in exactly
one: after `archiveSession` followed by `restoreSession` of the same id
the id is present in BOTH, because restoring re-inserts into the active
set while the archive row is retained (it keeps tracking
`restore_count`).  `WF` is the store-coherence invariant, itself preserved
by every well-formed operation. -/
theorem C1_session_presence :
    WF ({} : SMState) ∧
    (∀ (st : SMState) (op : SMOp), WF st → op.ok → WF (st.apply op)) ∧
    (∀ (st : SMState) (op : SMOp) (sid : String), WF st →
      (inActive st sid || inArchive st sid) = true →
      (inActive (st.apply op) sid || inArchive (st.apply op) sid) = true) ∧
    (∀ (st : SMState) (sd : List (String × PyVal)) (freshId : String)
      (now : DateTime),
      inActive (st.apply (.create sd freshId now))
        (SessionManager.create_session st sd freshId now).2 = true) ∧
    (∀ (st : SMState) (sid : String) (now : DateTime),
      inArchive st sid = true →
      inActive (st.apply (.restore sid now)) sid = true ∧
      inArchive (st.apply (.restore sid now)) sid = true) := by
  refine ⟨?_, ?_, ?_, ?_, ?_⟩
  · exact ⟨fun p hp => absurd hp (List.not_mem_nil p),
      fun r hr => absurd hr (List.not_mem_nil r)⟩
  · intro st op hWF hok
    cases op with
    | create sd f n => exact create_WF st sd f n hWF hok
    | archive s r n f => exact archive_WF st s r n f hWF
    | restore s n => exact restore_WF st s n hWF
  · intro st op sid hWF h
    cases op with
    | create sd f n => exact create_presence st sd f n sid h
    | archive s r n f => exact archive_presence st s r n f sid hWF h
    | restore s n => exact restore_presence st s n sid h
  · intro st sd f n
    unfold SMState.apply SessionManager.create_session inActive
    dsimp only
    exact assocHas_set_self st.active_sessions _ _
  · intro st sid now h
    unfold inArchive at h
    unfold SMState.apply SessionManager.restore_session
      SessionArchiver.restore_session
    dsimp only
    have hsome := (any_iff_findArchive st.archive sid).mp h
    cases hfa : findArchive st.archive sid with
    | none =>
        rw [hfa] at hsome
        simp at hsome
    | some row =>
        dsimp only
        constructor
        · unfold inActive
          dsimp only
          exact assocHas_set_self st.active_sessions _ _
        · unfold inArchive
          dsimp only
          rw [any_updateRestore]
          exact h

/-- Witness for the amended C1: the concrete trace create(`s1`) →
archive(`s1`) → restore(`s1`) from the empty state, stepping through each
conjunct of the theorem. -/
theorem C1_session_presence_witness :
    WF (SMState.apply ({} : SMState) (.create [] "s1" 0)) ∧
    (inActive (SMState.apply (SMState.apply ({} : SMState)
        (.create [] "s1" 0)) (.archive "s1" "manual" 1 "u2")) "s1" ||
      inArchive (SMState.apply (SMState.apply ({} : SMState)
        (.create [] "s1" 0)) (.archive "s1" "manual" 1 "u2")) "s1") = true ∧
    inActive (SMState.apply ({} : SMState) (.create [] "s1" 0))
      (SessionManager.create_session {} [] "s1" 0).2 = true ∧
    (inActive (SMState.apply (SMState.apply (SMState.apply ({} : SMState)
        (.create [] "s1" 0)) (.archive "s1" "manual" 1 "u2"))
        (.restore "s1" 2)) "s1" = true ∧
      inArchive (SMState.apply (SMState.apply (SMState.apply ({} : SMState)
        (.create [] "s1" 0)) (.archive "s1" "manual" 1 "u2"))
        (.restore "s1" 2)) "s1" = true) :=
  ⟨C1_session_presence.2.1 {} (.create [] "s1" 0)
     C1_session_presence.1 ⟨by decide, trivial⟩,
   C1_session_presence.2.2.1 (SMState.apply {} (.create [] "s1" 0))
     (.archive "s1" "manual" 1 "u2") "s1"
     (C1_session_presence.2.1 {} (.create [] "s1" 0)
       C1_session_presence.1 ⟨by decide, trivial⟩)
     (by decide),
   C1_session_presence.2.2.2.1 {} [] "s1" 0,
   C1_session_presence.2.2.2.2
     (SMState.apply (SMState.apply {} (.create [] "s1" 0))
       (.archive "s1" "manual" 1 "u2")) "s1" 2 (by decide)⟩

/-- C9: restoring a present id bumps the archive row's `restore_count` by
exactly 1, stamps `restored_at` with the current time, returns session
data whose `status` is `restored` (with the new `restore_count` and
restore timestamp recorded), and re-inserts the id into the active set;
restoring an absent id returns no session data (`None`, the
`ArchiveNotFound` outcome) and leaves the state unchanged. -/
theorem C9_restore_semantics (st : SMState) (sid : String)
    (now : DateTime) :
    (∀ row : ArchivedRow, findArchive st.archive sid = some row →
      findArchive (SessionManager.restore_session st sid now).1.archive
          sid = some { row with
            restored_at := some now
            restore_count := row.restore_count + 1 } ∧
      (∃ sd, (SessionManager.restore_session st sid now).2 = some sd ∧
        assocGet sd "status" = some (.pstr "restored") ∧
        assocGet sd "restore_count" =
          some (.pint (row.restore_count + 1)) ∧
        assocGet sd "restored_at" = some (.pstr (dtIso now))) ∧
      inActive (SessionManager.restore_session st sid now).1 sid = true) ∧
    (findArchive st.archive sid = none →
      SessionManager.restore_session st sid now = (st, none)) := by
  constructor
  · intro row hfa
    unfold SessionManager.restore_session SessionArchiver.restore_session
    rw [hfa]
    dsimp only
    refine ⟨?_, ⟨_, rfl, ?_, ?_, ?_⟩, ?_⟩
    · rw [findArchive_updateRestore_self, hfa]
      rfl
    · rw [assocGet_set_ne _ "restored_at" "status" _ (by decide),
        assocGet_set_self]
    · rw [assocGet_set_ne _ "restored_at" "restore_count" _ (by decide),
        assocGet_set_ne _ "status" "restore_count" _ (by decide),
        assocGet_set_ne _ "last_restored_at" "restore_count" _ (by decide),
        assocGet_set_self]
      norm_cast
    · rw [assocGet_set_self]
    · unfold inActive
      dsimp only
      exact assocHas_set_self st.active_sessions _ _
  · intro hfa
    unfold SessionManager.restore_session SessionArchiver.restore_session
    rw [hfa]

/-- Concrete archive row used to witness C9. -/
def archRowSample : ArchivedRow where
  session_id := "s9"
  session_data := [("session_id", .pstr "s9"), ("status", .pstr "archived")]
  archived_at := 5
  restore_count := 2

/-- Witness for C9: restoring `s9` from a one-row archive bumps its
`restore_count` from 2 to 3; restoring the unknown id `zz` returns
`None` and changes nothing. -/
theorem C9_restore_semantics_witness :
    (findArchive (SessionManager.restore_session
        { archive := [archRowSample] } "s9" 7).1.archive "s9" =
      some { archRowSample with
        restored_at := some 7
        restore_count := archRowSample.restore_count + 1 } ∧
      (∃ sd, (SessionManager.restore_session
          { archive := [archRowSample] } "s9" 7).2 = some sd ∧
        assocGet sd "status" = some (.pstr "restored") ∧
        assocGet sd "restore_count" =
          some (.pint (archRowSample.restore_count + 1)) ∧
        assocGet sd "restored_at" = some (.pstr (dtIso 7))) ∧
      inActive (SessionManager.restore_session
        { archive := [archRowSample] } "s9" 7).1 "s9" = true) ∧
    SessionManager.restore_session { archive := [archRowSample] } "zz" 7 =
      ({ archive := [archRowSample] }, none) :=
  ⟨(C9_restore_semantics { archive := [archRowSample] } "s9" 7).1
     archRowSample rfl,
   (C9_restore_semantics { archive := [archRowSample] } "zz" 7).2 rfl⟩

/-! ## `integration_pipeline.py`: `EventProcessingPipeline.process_event`

The five ordered stages, each dispatched through
`self.a2a_communicator.send_a2a_request` (the `agent_utils` retry loop).
The pipeline constructs a `circuit_breakers` dict and the process also owns
the durable dead-letter queue, but `process_event` touches neither; both
are carried in the state so that this is observable. -/

inductive Stage where
  | ingest
  | verify
  | summarize
  | triage
  | dispatch
deriving DecidableEq, Repr

def stageIdx : Stage → Nat
  | .ingest => 0
  | .verify => 1
  | .summarize => 2
  | .triage => 3
  | .dispatch => 4

/-- The exception message `process_event` raises (and records) when a
stage helper returns a falsy result. -/
def stageFailMsg : Stage → String
  | .ingest => "Failed to normalize event"
  | .verify => "Failed to verify event"
  | .summarize => "Failed to generate summary"
  | .triage => "Failed to triage incident"
  | .dispatch => "Failed to dispatch incident"

def stageSchema : Stage → String
  | .ingest => "event_ingestion_v1"
  | .verify => "event_verification_v1"
  | .summarize => "summary_generation_v1"
  | .triage => "incident_triage_v1"
  | .dispatch => "incident_dispatch_v1"

/-- The stage-specific payload built by `_ingest_event` ..
`_dispatch_incident` (`memCtx` is the memory context attached by
`_generate_summary`). -/
def stagePayload : Stage → PyVal → PyVal → PyVal
  | .ingest, input, _ =>
      .pdict [("event_data", input), ("operation", .pstr "normalize_event")]
  | .verify, input, _ =>
      .pdict [("event", input), ("operation", .pstr "verify_event")]
  | .summarize, input, memCtx =>
      .pdict [("event", input), ("memory_context", memCtx),
        ("operation", .pstr "generate_summary")]
  | .triage, input, _ =>
      .pdict [("brief", input), ("operation", .pstr "classify_severity")]
  | .dispatch, input, _ =>
      .pdict [("incident", input), ("operation", .pstr "generate_actions")]

/-- `create_mcp_envelope` (from `agent_utils`) as used for a stage call. -/
def stageEnvelope (s : Stage) (sid : String) (input memCtx : PyVal)
    (now : DateTime) : PyVal :=
  .pdict [("schema", .pstr (stageSchema s)),
    ("session_id", .pstr sid),
    ("timestamp", .pstr (dtIso now)),
    ("source_agent", .pstr "integration_pipeline"),
    ("payload", stagePayload s input memCtx)]

/-- External collaborators of one `process_event` run: the agent
registry's endpoint resolution, the transport outcome of each HTTP attempt
per stage, and the memory-bank context attached before the summarize call
(a memory failure is non-fatal and simply yields the fallback context). -/
structure PipelineEnv where
  registry : Stage → Option String
  net : Stage → Nat → HttpOutcome
  memoryContext : PyVal

/-- `SessionContext` dataclass. -/
structure SessionContext where
  session_id : String
  created_at : DateTime
  last_activity : DateTime
  events : List PyVal := []
  incident_id : Option PyVal := none
  status : String := "active"
  metadata : List (String × PyVal) := []

/-- Pipeline-visible state: sessions plus the untouched breaker dict and
the process-wide DLQ store (`A2ARetryHandler` would write the latter, but
`process_event` never instantiates it). -/
structure PipelineState where
  sessions : List (String × SessionContext) := []
  archived_sessions : List (String × SessionContext) := []
  circuit_breakers : List (String × CircuitBreaker) := []
  dlq : DLQ := []
  stats_events_processed : Nat := 0
  stats_incidents_created : Nat := 0
  stats_errors : Nat := 0
  stats_retries : Int := 0
  stats_circuit_breaker_trips : Nat := 0

/-- In-place update of one entry of a string-keyed dict. -/
def assocUpdate {α : Type} : List (String × α) → String → (α → α) →
    List (String × α)
  | [], _, _ => []
  | (k, v) :: rest, sid, f =>
      if k = sid then (k, f v) :: assocUpdate rest sid f
      else (k, v) :: assocUpdate rest sid f

theorem assocGet_assocUpdate_self {α : Type} (m : List (String × α))
    (sid : String) (f : α → α) :
    assocGet (assocUpdate m sid f) sid = (assocGet m sid).map f := by
  induction m with
  | nil => rfl
  | cons hd tl ih =>
      obtain ⟨k, v⟩ := hd
      by_cases h : k = sid
      · simp [assocUpdate, assocGet, h]
      · simp [assocUpdate, assocGet, h, ih]

/-- `.get(key)` on a dict value (stage results are dicts in this
system). -/
def pyGet (v : PyVal) (k : String) : Option PyVal :=
  match v with
  | .pdict kvs => assocGet kvs k
  | _ => none

/-- One stage helper (`_ingest_event` .. `_dispatch_incident`): resolve
the target from the registry (an unresolved target raises, caught to
`None`), send the envelope through the communicator's retry loop, return
`response.data` on success and `None` on failure.  The flag records
whether a network dispatch happened. -/
def stageCall (env : PipelineEnv) (retryAttempts : Nat) (s : Stage)
    (input : PyVal) (sid : String) (now : DateTime) :
    Option PyVal × Bool :=
  match env.registry s with
  | none => (none, false)
  | some url =>
      let resp := (send_a2a_request (env.net s)
        { agent_url := url
          envelope := stageEnvelope s sid input env.memoryContext now
          timeout := 30
          max_retries := retryAttempts }).1
      (if resp.success then resp.data else none, true)

/-- The dict returned by `process_event` (`result` payload and
`pipeline_duration` timedelta carried where applicable; the latter is a
display value only). -/
structure ProcessResult where
  success : Bool
  session_id : String
  incident_id : Option PyVal := none
  result : Option PyVal := none
  error : Option String := none

/-- The `except` path of `process_event`: mark the session failed with the
error in its metadata and bump the error counter. -/
def failOutcome (st : PipelineState) (sid msg : String)
    (trace : List Stage) : PipelineState × ProcessResult × List Stage :=
  ({ st with
      sessions := assocUpdate st.sessions sid (fun sc =>
        { sc with
            status := "failed"
            metadata := assocSet sc.metadata "error" (.pstr msg) })
      stats_errors := st.stats_errors + 1 },
   { success := false, session_id := sid, error := some msg }, trace)

/-- `EventProcessingPipeline.process_event`: create the session, run the
five stages in order, fail fast on the first falsy stage result, complete
on dispatch success.  Returns the new state, the result dict, and the
stages that were actually dispatched over the network. -/
def process_event (env : PipelineEnv) (retryAttempts : Nat)
    (st : PipelineState) (event_data : PyVal) (sid sourceAgent : String)
    (now : DateTime) : PipelineState × ProcessResult × List Stage :=
  let session0 : SessionContext :=
    { session_id := sid
      created_at := now
      last_activity := now
      events := []
      metadata := [("source_agent", .pstr sourceAgent),
        ("pipeline_start", .pstr (dtIso now))] }
  let st0 := { st with sessions := assocSet st.sessions sid session0 }
  match stageCall env retryAttempts .ingest event_data sid now with
  | (none, d1) =>
      failOutcome st0 sid (stageFailMsg .ingest)
        (if d1 then [.ingest] else [])
  | (some v1, d1) =>
      let t1 := if d1 then [Stage.ingest] else []
      let st1 := { st0 with
        stats_retries := st0.stats_retries + (retryAttempts : Int) - 1 }
      if !pyTruthy v1 then failOutcome st1 sid (stageFailMsg .ingest) t1
      else
        match stageCall env retryAttempts .verify v1 sid now with
        | (none, d2) =>
            failOutcome st1 sid (stageFailMsg .verify)
              (t1 ++ if d2 then [.verify] else [])
        | (some v2, d2) =>
            let t2 := t1 ++ if d2 then [Stage.verify] else []
            if !pyTruthy v2 then
              failOutcome st1 sid (stageFailMsg .verify) t2
            else
              match stageCall env retryAttempts .summarize v2 sid now with
              | (none, d3) =>
                  failOutcome st1 sid (stageFailMsg .summarize)
                    (t2 ++ if d3 then [.summarize] else [])
              | (some v3, d3) =>
                  let t3 := t2 ++ if d3 then [Stage.summarize] else []
                  if !pyTruthy v3 then
                    failOutcome st1 sid (stageFailMsg .summarize) t3
                  else
                    match stageCall env retryAttempts .triage v3 sid now with
                    | (none, d4) =>
                        failOutcome st1 sid (stageFailMsg .triage)
                          (t3 ++ if d4 then [.triage] else [])
                    | (some v4, d4) =>
                        let t4 := t3 ++ if d4 then [Stage.triage] else []
                        if !pyTruthy v4 then
                          failOutcome st1 sid (stageFailMsg .triage) t4
                        else
                          match stageCall env retryAttempts .dispatch v4
                            sid now with
                          | (none, d5) =>
                              failOutcome st1 sid (stageFailMsg .dispatch)
                                (t4 ++ if d5 then [.dispatch] else [])
                          | (some v5, d5) =>
                              let t5 := t4 ++
                                if d5 then [Stage.dispatch] else []
                              if !pyTruthy v5 then
                                failOutcome st1 sid (stageFailMsg .dispatch)
                                  t5
                              else
                                ({ st1 with
                                    sessions := assocUpdate st1.sessions
                                      sid (fun sc =>
                                        { sc with
                                            incident_id :=
                                              pyGet v5 "incident_id"
                                            status := "completed" })
                                    stats_events_processed :=
                                      st1.stats_events_processed + 1
                                    stats_incidents_created :=
                                      st1.stats_incidents_created + 1 },
                                 { success := true
                                   session_id := sid
                                   incident_id := pyGet v5 "incident_id"
                                   result := some v5 }, t5)

/-! Facts shared by the failure path of `process_event`: traces of aborted
runs only mention stages at or before the failing one, and the `except`
branch marks the session failed with the raised message in its metadata. -/

theorem mem_ite_single_bound {d : Bool} {s : Stage} {k : Nat}
    (hs : stageIdx s ≤ k) :
    ∀ x ∈ (if d then [s] else ([] : List Stage)), stageIdx x ≤ k := by
  intro x hx
  cases d with
  | false => simp at hx
  | true =>
      simp at hx
      subst hx
      exact hs

theorem trace_append_bound {t : List Stage} {d : Bool} {s : Stage} {k : Nat}
    (ht : ∀ x ∈ t, stageIdx x ≤ k) (hs : stageIdx s ≤ k) :
    ∀ x ∈ t ++ (if d then [s] else ([] : List Stage)), stageIdx x ≤ k := by
  intro x hx
  rcases List.mem_append.mp hx with h | h
  · exact ht x h
  · exact mem_ite_single_bound hs x h

theorem failOutcome_leaf (st : PipelineState) (sid : String) (s : Stage)
    (tr : List Stage) (st2 : PipelineState) (res : ProcessResult)
    (tr2 : List Stage) (sc0 : SessionContext)
    (hsess : assocGet st.sessions sid = some sc0)
    (hrun : failOutcome st sid (stageFailMsg s) tr = (st2, res, tr2))
    (htr : ∀ x ∈ tr, stageIdx x ≤ stageIdx s) :
    res.session_id = sid ∧
    ∃ s2 : Stage,
      res.error = some (stageFailMsg s2) ∧
      (∃ sc : SessionContext,
        assocGet st2.sessions sid = some sc ∧
        sc.status = "failed" ∧
        assocGet sc.metadata "error" = some (.pstr (stageFailMsg s2))) ∧
      ∀ x ∈ tr2, stageIdx x ≤ stageIdx s2 := by
  simp only [failOutcome, Prod.mk.injEq] at hrun
  obtain ⟨hst, hres, htr2⟩ := hrun
  subst hst
  subst hres
  subst htr2
  refine ⟨rfl, s, rfl,
    ⟨{ sc0 with
        status := "failed"
        metadata := assocSet sc0.metadata "error"
          (.pstr (stageFailMsg s)) }, ?_, rfl, ?_⟩, htr⟩
  · dsimp only
    rw [assocGet_assocUpdate_self, hsess]
    rfl
  · exact assocGet_set_self _ _ _

/-- C7: for every run of `process_event` that returns a failure, the result
carries the run's session_id and the raised stage-failure message, the
session is marked `failed` with that message stored under `"error"` in its
metadata, and every stage dispatched in the run lies at or before the
failing stage in the order ingest, verify, summarize, triage, dispatch —
the remaining stages never run. -/
theorem C7_stage_failure_aborts (env : PipelineEnv) (retryAttempts : Nat)
    (st : PipelineState) (event_data : PyVal) (sid sourceAgent : String)
    (now : DateTime) (st2 : PipelineState) (res : ProcessResult)
    (trace : List Stage)
    (hrun : process_event env retryAttempts st event_data sid sourceAgent now
      = (st2, res, trace))
    (hfail : res.success = false) :
    res.session_id = sid ∧
    ∃ s : Stage,
      res.error = some (stageFailMsg s) ∧
      (∃ sc : SessionContext,
        assocGet st2.sessions sid = some sc ∧
        sc.status = "failed" ∧
        assocGet sc.metadata "error" = some (.pstr (stageFailMsg s))) ∧
      ∀ s2 ∈ trace, stageIdx s2 ≤ stageIdx s := by
  unfold process_event at hrun
  dsimp only at hrun
  split at hrun
  · exact failOutcome_leaf _ _ .ingest _ _ _ _ _ (assocGet_set_self _ _ _)
      hrun (mem_ite_single_bound (by decide))
  · split at hrun
    · exact failOutcome_leaf _ _ .ingest _ _ _ _ _ (assocGet_set_self _ _ _)
        hrun (mem_ite_single_bound (by decide))
    · split at hrun
      · exact failOutcome_leaf _ _ .verify _ _ _ _ _
          (assocGet_set_self _ _ _) hrun
          (trace_append_bound (mem_ite_single_bound (by decide)) (by decide))
      · split at hrun
        · exact failOutcome_leaf _ _ .verify _ _ _ _ _
            (assocGet_set_self _ _ _) hrun
            (trace_append_bound (mem_ite_single_bound (by decide))
              (by decide))
        · split at hrun
          · exact failOutcome_leaf _ _ .summarize _ _ _ _ _
              (assocGet_set_self _ _ _) hrun
              (trace_append_bound
                (trace_append_bound (mem_ite_single_bound (by decide))
                  (by decide)) (by decide))
          · split at hrun
            · exact failOutcome_leaf _ _ .summarize _ _ _ _ _
                (assocGet_set_self _ _ _) hrun
                (trace_append_bound
                  (trace_append_bound (mem_ite_single_bound (by decide))
                    (by decide)) (by decide))
            · split at hrun
              · exact failOutcome_leaf _ _ .triage _ _ _ _ _
                  (assocGet_set_self _ _ _) hrun
                  (trace_append_bound
                    (trace_append_bound
                      (trace_append_bound (mem_ite_single_bound (by decide))
                        (by decide)) (by decide)) (by decide))
              · split at hrun
                · exact failOutcome_leaf _ _ .triage _ _ _ _ _
                    (assocGet_set_self _ _ _) hrun
                    (trace_append_bound
                      (trace_append_bound
                        (trace_append_bound
                          (mem_ite_single_bound (by decide)) (by decide))
                        (by decide)) (by decide))
                · split at hrun
                  · exact failOutcome_leaf _ _ .dispatch _ _ _ _ _
                      (assocGet_set_self _ _ _) hrun
                      (trace_append_bound
                        (trace_append_bound
                          (trace_append_bound
                            (trace_append_bound
                              (mem_ite_single_bound (by decide))
                              (by decide)) (by decide)) (by decide))
                        (by decide))
                  · split at hrun
                    · exact failOutcome_leaf _ _ .dispatch _ _ _ _ _
                        (assocGet_set_self _ _ _) hrun
                        (trace_append_bound
                          (trace_append_bound
                            (trace_append_bound
                              (trace_append_bound
                                (mem_ite_single_bound (by decide))
                                (by decide)) (by decide)) (by decide))
                          (by decide))
                    · simp only [Prod.mk.injEq] at hrun
                      obtain ⟨-, hres, -⟩ := hrun
                      subst hres
                      exact Bool.noConfusion hfail

/-- An environment whose registry resolves no agent: the very first stage
helper raises, so the run fails at ingest. -/
def c7Env : PipelineEnv where
  registry := fun _ => none
  net := fun _ _ => .timeout
  memoryContext := .pdict []

theorem C7_stage_failure_aborts_witness :
    (process_event c7Env 0 {} .pnone "s7" "src" 0).2.1.session_id = "s7" ∧
    ∃ s : Stage,
      (process_event c7Env 0 {} .pnone "s7" "src" 0).2.1.error
        = some (stageFailMsg s) ∧
      (∃ sc : SessionContext,
        assocGet (process_event c7Env 0 {} .pnone "s7" "src" 0).1.sessions
          "s7" = some sc ∧
        sc.status = "failed" ∧
        assocGet sc.metadata "error" = some (.pstr (stageFailMsg s))) ∧
      ∀ s2 ∈ (process_event c7Env 0 {} .pnone "s7" "src" 0).2.2,
        stageIdx s2 ≤ stageIdx s :=
  C7_stage_failure_aborts c7Env 0 {} .pnone "s7" "src" 0
    (process_event c7Env 0 {} .pnone "s7" "src" 0).1
    (process_event c7Env 0 {} .pnone "s7" "src" 0).2.1
    (process_event c7Env 0 {} .pnone "s7" "src" 0).2.2
    rfl rfl

/-- Scenario B's environment: every stage resolves, ingest, verify and
summarize answer 200 with a truthy payload, and the triage target refuses
the connection on every attempt. -/
def c2Env : PipelineEnv where
  registry := fun _ => some "http://agents.internal"
  net := fun s _ =>
    match s with
    | .triage => .connErr "connection refused"
    | _ => .ok (.pdict [("ok", .pbool true)])
  memoryContext := .pdict []

/-- C2, counterexample: with the triage target unreachable for all retry
attempts and every earlier stage succeeding, `process_event` does return
`{success := false, session_id, error}` with the session marked failed and
the trace stopping at triage — but the dead-letter queue stays empty (no
`FailedEvent` row targeting the triage agent is enqueued) and the breaker
dict stays empty, because the pipeline calls the communicator directly and
never routes a dispatch through the breaker-wrapped retry executor. -/
theorem C2_scenario_b_counterexample :
    (process_event c2Env 2 {} (.pdict [("content", .pstr "db down")]) "s2c"
      "ingest" 0).2.1.success = false ∧
    (process_event c2Env 2 {} (.pdict [("content", .pstr "db down")]) "s2c"
      "ingest" 0).2.1.error = some "Failed to triage incident" ∧
    (process_event c2Env 2 {} (.pdict [("content", .pstr "db down")]) "s2c"
      "ingest" 0).1.dlq = [] ∧
    (process_event c2Env 2 {} (.pdict [("content", .pstr "db down")]) "s2c"
      "ingest" 0).1.circuit_breakers = [] ∧
    Option.map (fun sc : SessionContext => sc.status)
      (assocGet (process_event c2Env 2 {}
        (.pdict [("content", .pstr "db down")]) "s2c" "ingest" 0).1.sessions
        "s2c") = some "failed" ∧
    (process_event c2Env 2 {} (.pdict [("content", .pstr "db down")]) "s2c"
      "ingest" 0).2.2 = [.ingest, .verify, .summarize, .triage] :=
  ⟨rfl, rfl, rfl, rfl, rfl, rfl⟩

/-- C2 (amended): when ingest, verify and summarize succeed with truthy
results and the triage stage call fails after its dispatch, `process_event`
returns `{success := false, session_id, error := "Failed to triage
incident"}`, the session is marked failed with the error in its metadata,
and the dead-letter queue and circuit-breaker dict are exactly those of the
pre-run state: the pipeline dispatches through the communicator directly,
so stage exhaustion enqueues no `FailedEvent`. -/
theorem C2_triage_exhaustion_no_dlq (env : PipelineEnv) (n : Nat)
    (st : PipelineState) (ev : PyVal) (sid src : String) (now : DateTime)
    (v1 v2 v3 : PyVal) (d1 d2 d3 : Bool)
    (h1 : stageCall env n .ingest ev sid now = (some v1, d1))
    (ht1 : pyTruthy v1 = true)
    (h2 : stageCall env n .verify v1 sid now = (some v2, d2))
    (ht2 : pyTruthy v2 = true)
    (h3 : stageCall env n .summarize v2 sid now = (some v3, d3))
    (ht3 : pyTruthy v3 = true)
    (h4 : stageCall env n .triage v3 sid now = (none, true)) :
    (process_event env n st ev sid src now).2.1 =
      { success := false
        session_id := sid
        error := some "Failed to triage incident" } ∧
    (process_event env n st ev sid src now).1.dlq = st.dlq ∧
    (process_event env n st ev sid src now).1.circuit_breakers =
      st.circuit_breakers ∧
    (∃ sc : SessionContext,
      assocGet (process_event env n st ev sid src now).1.sessions sid
        = some sc ∧
      sc.status = "failed" ∧
      assocGet sc.metadata "error"
        = some (.pstr "Failed to triage incident")) ∧
    (process_event env n st ev sid src now).2.2 =
      (if d1 then [Stage.ingest] else []) ++
        (if d2 then [Stage.verify] else []) ++
        (if d3 then [Stage.summarize] else []) ++ [Stage.triage] := by
  unfold process_event
  dsimp only
  rw [h1]
  dsimp only
  rw [if_neg (show ¬((!pyTruthy v1) = true) by simp [ht1])]
  rw [h2]
  dsimp only
  rw [if_neg (show ¬((!pyTruthy v2) = true) by simp [ht2])]
  rw [h3]
  dsimp only
  rw [if_neg (show ¬((!pyTruthy v3) = true) by simp [ht3])]
  rw [h4]
  dsimp only
  refine ⟨rfl, rfl, rfl, ?_, rfl⟩
  dsimp only [failOutcome]
  rw [assocGet_assocUpdate_self, assocGet_set_self]
  exact ⟨_, rfl, rfl, assocGet_set_self _ _ _⟩

theorem C2_triage_exhaustion_no_dlq_witness :
    (process_event c2Env 2 {} (.pdict [("content", .pstr "db down")]) "s2b"
      "ingest" 0).2.1 =
      { success := false
        session_id := "s2b"
        error := some "Failed to triage incident" } ∧
    (process_event c2Env 2 {} (.pdict [("content", .pstr "db down")]) "s2b"
      "ingest" 0).1.dlq = ({} : PipelineState).dlq ∧
    (process_event c2Env 2 {} (.pdict [("content", .pstr "db down")]) "s2b"
      "ingest" 0).1.circuit_breakers =
      ({} : PipelineState).circuit_breakers ∧
    (∃ sc : SessionContext,
      assocGet (process_event c2Env 2 {}
        (.pdict [("content", .pstr "db down")]) "s2b" "ingest"
        0).1.sessions "s2b" = some sc ∧
      sc.status = "failed" ∧
      assocGet sc.metadata "error"
        = some (.pstr "Failed to triage incident")) ∧
    (process_event c2Env 2 {} (.pdict [("content", .pstr "db down")]) "s2b"
      "ingest" 0).2.2 =
      (if (true : Bool) then [Stage.ingest] else []) ++
        (if (true : Bool) then [Stage.verify] else []) ++
        (if (true : Bool) then [Stage.summarize] else []) ++
        [Stage.triage] :=
  C2_triage_exhaustion_no_dlq c2Env 2 {}
    (.pdict [("content", .pstr "db down")]) "s2b" "ingest" 0
    (.pdict [("ok", .pbool true)]) (.pdict [("ok", .pbool true)])
    (.pdict [("ok", .pbool true)]) true true true
    rfl rfl rfl rfl rfl rfl rfl

end Capstone
